import Mathlib

/-!
# Verification of the SYLON fleet position simulation and dispatch-status engine

Shallow embedding of the GPS simulation core
(`packages/backend/src/modules/gps/simulation.ts`), the geo-math
primitives (`packages/shared/src/utils/geo.ts`) and the status resolver
(`getResourceStatusFromJobs` in the backend server, with
`getJobsByResource` from `packages/backend/src/data/jobs.ts`).

JavaScript numbers are embedded as real numbers; `Date` values as a real
number of milliseconds; `Math.random()` draws are passed explicitly as
parameters (each draw lies in `[0,1)` when hypotheses need it).  JS `Map`
is embedded as an insertion-ordered association list.  Division by zero
(JS `Infinity`/`NaN`) is never exercised by the theorems below: every
statement touching a quotient carries a positivity hypothesis on the
denominator.
-/

noncomputable section

open Real

/-- `Coordinates` from `packages/shared/src/types/core.ts` (the two
required fields; the optional `altitude`/`accuracy` fields are unused by
the simulation core). -/
structure Coordinates where
  latitude : ℝ
  longitude : ℝ

theorem Coordinates.ext_iff₂ (a b : Coordinates) :
    a = b ↔ a.latitude = b.latitude ∧ a.longitude = b.longitude := by
  constructor
  · intro h; subst h; exact ⟨rfl, rfl⟩
  · intro ⟨h1, h2⟩; cases a; cases b; simp_all

/-- `GeoPosition` from `core.ts`: coordinates plus timestamp, speed,
heading and accuracy, as populated by the simulation. -/
structure GeoPosition where
  latitude : ℝ
  longitude : ℝ
  timestamp : ℝ
  speed : ℝ
  heading : ℝ
  accuracy : ℝ

/-- JS `Math.atan2` for finite arguments. -/
def atan2 (y x : ℝ) : ℝ :=
  if 0 < x then arctan (y / x)
  else if x < 0 then
    (if 0 ≤ y then arctan (y / x) + π else arctan (y / x) - π)
  else
    (if 0 < y then π / 2 else if y < 0 then -(π / 2) else 0)

/-- `toRad` from `geo.ts`: `(deg * Math.PI) / 180`. -/
def toRad (deg : ℝ) : ℝ := deg * π / 180

/-- `toDeg` from `geo.ts`: `(rad * 180) / Math.PI`. -/
def toDeg (rad : ℝ) : ℝ := rad * 180 / π

/-- JS `%` on numbers (truncated remainder), used by `calculateBearing`. -/
def jsRem (a b : ℝ) : ℝ := a - b * (if 0 ≤ a / b then (⌊a / b⌋ : ℝ) else (⌈a / b⌉ : ℝ))

/-- `calculateDistance` from `geo.ts`: haversine great-circle distance,
Earth radius 6371 km. -/
def calculateDistance (f t : Coordinates) : ℝ :=
  let R : ℝ := 6371
  let dLat := toRad (t.latitude - f.latitude)
  let dLon := toRad (t.longitude - f.longitude)
  let lat1 := toRad f.latitude
  let lat2 := toRad t.latitude
  let a := sin (dLat / 2) * sin (dLat / 2) +
    sin (dLon / 2) * sin (dLon / 2) * cos lat1 * cos lat2
  let c := 2 * atan2 (Real.sqrt a) (Real.sqrt (1 - a))
  R * c

/-- The haversine quantity `a` computed inside `calculateDistance`. -/
def hav (f t : Coordinates) : ℝ :=
  sin (toRad (t.latitude - f.latitude) / 2) * sin (toRad (t.latitude - f.latitude) / 2) +
    sin (toRad (t.longitude - f.longitude) / 2) * sin (toRad (t.longitude - f.longitude) / 2) *
      cos (toRad f.latitude) * cos (toRad t.latitude)

theorem calculateDistance_eq_hav (f t : Coordinates) :
    calculateDistance f t = 6371 * (2 * atan2 (Real.sqrt (hav f t)) (Real.sqrt (1 - hav f t))) := rfl

/-- `calculateBearing` from `geo.ts`. -/
def calculateBearing (f t : Coordinates) : ℝ :=
  let dLon := toRad (t.longitude - f.longitude)
  let lat1 := toRad f.latitude
  let lat2 := toRad t.latitude
  let y := sin dLon * cos lat2
  let x := cos lat1 * sin lat2 - sin lat1 * cos lat2 * cos dLon
  jsRem (toDeg (atan2 y x) + 360) 360

/-- `interpolatePosition` from `geo.ts`: linear interpolation in
latitude/longitude space. -/
def interpolatePosition (f t : Coordinates) (fraction : ℝ) : Coordinates :=
  { latitude := f.latitude + (t.latitude - f.latitude) * fraction
    longitude := f.longitude + (t.longitude - f.longitude) * fraction }

/-- `ResourceType` from `core.ts`. -/
inductive ResourceType where
  | wheel_loader | excavator | plow_truck | haul_truck | dump_truck | tanker | crane
deriving DecidableEq, Repr

/-- The slice of `Resource` (from `core.ts`) consumed by the simulation
module: its `id` and `type`. -/
structure Resource where
  id : String
  type : ResourceType
deriving DecidableEq, Repr

/-- The `status` field of `SimulationState` in `simulation.ts`. -/
inductive SimStatus where
  | idle | moving | working | returning
deriving DecidableEq, Repr

/-- `SimulationState` from `simulation.ts`. -/
structure SimulationState where
  resourceId : String
  currentPosition : Coordinates
  targetPosition : Coordinates
  speed : ℝ
  heading : ℝ
  waypoints : List Coordinates
  waypointIndex : ℕ
  status : SimStatus
  lastUpdate : ℝ

/-- One patrol route of `PLOW_ROUTES` (shared demo constants): its
ordered waypoint list.  The source maps each `{lat, lng}` entry to a
`Coordinates` record; the embedding stores the waypoints as
`Coordinates` directly. -/
structure PlowRoute where
  waypoints : List Coordinates

/-- One entry of `PROJECT_AREAS` (shared demo constants): its optional
`coordinates` field (`coordinates?: Coordinates` on the site type). -/
structure ProjectArea where
  coordinates : Option Coordinates

/-- The slice of the shared demo-constants module (`@sylon/shared`)
read by `createInitialState`: `PLOW_ROUTES`, `PROJECT_AREAS`,
`DEMO_GARAGE`, `DEMO_QUARRY_NORTH`, `DEMO_QUARRY_SOUTH`.  The module's
other exports (company data, sites, materials, labels) are not read by
the simulation.  Passing the catalog as a parameter keeps the lemmas
about `createInitialState` usable both generically and at the concrete
`demoCatalog` values below. -/
structure Catalog where
  plowRoutes : List PlowRoute
  projectAreas : List ProjectArea
  garage : Coordinates
  quarryNorth : Coordinates
  quarrySouth : Coordinates

/-- JS `parseInt` restricted to the shapes that occur in resource ids:
an optional sign followed by decimal digits; `none` models `NaN`
(no leading digit).  (Leading whitespace and hex prefixes never occur in
the ids the simulation parses.) -/
def parseIntJS (s : String) : Option ℤ :=
  let chars := s.toList
  let signAndRest : ℤ × List Char :=
    match chars with
    | '-' :: t => (-1, t)
    | '+' :: t => (1, t)
    | t => (1, t)
  let ds := signAndRest.2.takeWhile Char.isDigit
  if ds.isEmpty then none
  else some (signAndRest.1 * (ds.foldl (fun acc c => acc * 10 + (c.toNat - '0'.toNat)) 0 : ℕ))

/-- JS array indexing `arr[i]` for an integer index: `undefined` (here
`none`) outside `[0, length)`. -/
def jsArrayGet {α : Type} (l : List α) (i : ℤ) : Option α :=
  if h : 0 ≤ i ∧ i.toNat < l.length then some (l.get ⟨i.toNat, h.2⟩) else none

/-- JS `String.prototype.split` on a single separator character,
written by structural recursion over the character list (so that it
reduces definitionally). -/
def splitOnChar (sep : Char) : List Char → List (List Char)
  | [] => [[]]
  | c :: cs =>
    let r := splitOnChar sep cs
    if c = sep then [] :: r
    else
      match r with
      | [] => [[c]]
      | h :: t => (c :: h) :: t

/-- `resource.id.split('-')[k] || '1'`: the `k`-th dash-separated part of
the id, defaulting to `"1"` when missing or empty (the only falsy
string). -/
def idPart (id : String) (k : ℕ) : String :=
  match ((splitOnChar '-' id.toList).map fun cs => String.mk cs).get? k with
  | some p => if p = "" then "1" else p
  | none => "1"

/-- The waypoint list built by the `plow_truck` arm of
`createInitialState`: `parseInt(resource.id.split('-')[2] || '1') - 1`
selects a route by truncated-modulo index; a `NaN` parse or an
out-of-range index yields `undefined`, and `route?.waypoints.map(...) ?? []`
then collapses to the empty list. -/
def plowWaypoints (cat : Catalog) (id : String) : List Coordinates :=
  match parseIntJS (idPart id 2) with
  | none => []
  | some n =>
    match jsArrayGet cat.plowRoutes ((n - 1).tmod cat.plowRoutes.length) with
    | some route => route.waypoints
    | none => []

/-- `createInitialState` from `simulation.ts`.  `rnd n` is the value of
the `n`-th `Math.random()` call in source order within the function;
`t0` is the `new Date()` creation timestamp (ms). -/
def createInitialState (cat : Catalog) (resource : Resource) (rnd : ℕ → ℝ) (t0 : ℝ) :
    SimulationState :=
  let wss : List Coordinates × SimStatus × ℝ :=
    match resource.type with
    | .plow_truck =>
      (plowWaypoints cat resource.id, .moving, 30 + rnd 0 * 20)
    | .haul_truck =>
      let projectIndex : Option ℤ := (parseIntJS (idPart resource.id 2)).map (· - 1)
      let project : Option ProjectArea :=
        match projectIndex with
        | none => none
        | some n => jsArrayGet cat.projectAreas (n.tmod cat.projectAreas.length)
      let quarry :=
        match projectIndex with
        | none => cat.quarrySouth        -- NaN % 2 === 0 is false
        | some n => if n.tmod 2 = 0 then cat.quarryNorth else cat.quarrySouth
      let waypoints := [cat.garage, quarry,
        ((project.bind ProjectArea.coordinates).getD cat.garage), cat.garage]
      (waypoints, .moving, 40 + rnd 0 * 30)
    | .wheel_loader =>
      let loaderIndex : Option ℤ := parseIntJS (idPart resource.id 1)
      let quarry :=
        match loaderIndex with
        | none => cat.quarrySouth        -- NaN <= 2 is false
        | some n => if n ≤ 2 then cat.quarryNorth else cat.quarrySouth
      let waypoints : List Coordinates :=
        [ ⟨quarry.latitude + (rnd 0 - 0.5) * 0.002, quarry.longitude + (rnd 1 - 0.5) * 0.002⟩,
          ⟨quarry.latitude + (rnd 2 - 0.5) * 0.002, quarry.longitude + (rnd 3 - 0.5) * 0.002⟩,
          ⟨quarry.latitude + (rnd 4 - 0.5) * 0.002, quarry.longitude + (rnd 5 - 0.5) * 0.002⟩ ]
      (waypoints, .working, 5 + rnd 6 * 10)
    | .excavator =>
      let excIndex : Option ℤ := (parseIntJS (idPart resource.id 1)).map (· - 1)
      let center : Coordinates :=
        match excIndex with
        | none => cat.garage
        | some n => ((jsArrayGet cat.projectAreas (n.tmod cat.projectAreas.length)).bind
            ProjectArea.coordinates).getD cat.garage
      let waypoints : List Coordinates :=
        [ ⟨center.latitude + (rnd 0 - 0.5) * 0.001, center.longitude + (rnd 1 - 0.5) * 0.001⟩,
          ⟨center.latitude + (rnd 2 - 0.5) * 0.001, center.longitude + (rnd 3 - 0.5) * 0.001⟩ ]
      (waypoints, .working, 2 + rnd 4 * 5)
    | _ => ([cat.garage], .idle, 0)
  let waypoints := wss.1
  let currentPosition := (waypoints.get? 0).getD cat.garage
  let targetPosition := (waypoints.get? 1).getD ((waypoints.get? 0).getD cat.garage)
  { resourceId := resource.id
    currentPosition := currentPosition
    targetPosition := targetPosition
    speed := wss.2.2
    heading := calculateBearing currentPosition targetPosition
    waypoints := waypoints
    waypointIndex := 0
    status := wss.2.1
    lastUpdate := t0 }

/-- The `Math.random()` draws consumed for one resource during one
`updateSimulation` iteration, in source order: the two jitter draws
(idle branch), the speed-perturbation draw (interpolation branch), and
the accuracy draw of the emitted sample. -/
structure TickRand where
  jx : ℝ
  jy : ℝ
  sp : ℝ
  acc : ℝ

/-- `addJitter` from `simulation.ts` with its two random draws made
explicit. -/
def addJitter (coords : Coordinates) (amount : ℝ) (rx ry : ℝ) : Coordinates :=
  { latitude := coords.latitude + (rx - 0.5) * amount
    longitude := coords.longitude + (ry - 0.5) * amount }

/-- The per-resource state update performed by the `forEach` body of
`updateSimulation` in `simulation.ts` (`now` in ms). -/
def tickState (state : SimulationState) (now : ℝ) (r : TickRand) : SimulationState :=
  let deltaTime := (now - state.lastUpdate) / 1000
  if state.status = SimStatus.idle then
    { state with currentPosition := addJitter state.currentPosition 0.00001 r.jx r.jy
                 lastUpdate := now }
  else
    let distanceToTarget := calculateDistance state.currentPosition state.targetPosition
    let distanceToMove := state.speed / 3600 * deltaTime
    if distanceToMove ≥ distanceToTarget then
      let wi0 := state.waypointIndex + 1
      let wi := if wi0 ≥ state.waypoints.length then 0 else wi0
      let newCurrent := state.targetPosition
      let newTarget := (state.waypoints.get? wi).getD newCurrent
      { state with waypointIndex := wi
                   currentPosition := newCurrent
                   targetPosition := newTarget
                   heading := calculateBearing newCurrent newTarget
                   lastUpdate := now }
    else
      let fraction := distanceToMove / distanceToTarget
      let newCurrent := interpolatePosition state.currentPosition state.targetPosition fraction
      let sp1 := state.speed + (r.sp - 0.5) * 2
      { state with currentPosition := newCurrent
                   speed := max 5 (min 80 sp1)
                   lastUpdate := now }

/-- The `GeoPosition` sample emitted for one (already updated) resource
state by `updateSimulation`. -/
def emitSample (state : SimulationState) (now : ℝ) (r : TickRand) : GeoPosition :=
  { latitude := state.currentPosition.latitude
    longitude := state.currentPosition.longitude
    timestamp := now
    speed := if state.status = SimStatus.idle then 0 else state.speed
    heading := state.heading
    accuracy := 3 + r.acc * 5 }

/-- The module-level `simulationStates: Map<string, SimulationState>`,
embedded as an insertion-ordered association list. -/
abbrev Store : Type := List (String × SimulationState)

/-- JS `Map.prototype.set`: replace in place if the key exists, else
append. -/
def jsMapSet (m : Store) (k : String) (v : SimulationState) : Store :=
  if (List.any m fun p => p.1 == k) then
    List.map (fun p => if p.1 == k then (k, v) else p) m
  else m ++ [(k, v)]

/-- JS `Map.prototype.get`. -/
def jsMapGet (m : Store) (k : String) : Option SimulationState :=
  (List.find? (fun p => p.1 == k) m).map Prod.snd

/-- `initializeSimulation` from `simulation.ts`: builds one state per
resource via `createInitialState` and `set`s it into the store.  `rnd i`
is the random stream consumed by the `i`-th resource; `t0` the shared
creation time.  The source function returns `void` and never throws:
the embedding is total and yields the updated store. -/
def initializeSimulation (cat : Catalog) (resources : List Resource) (rnd : ℕ → ℕ → ℝ)
    (t0 : ℝ) (m : Store) : Store :=
  (resources.enum).foldl
    (fun acc p => jsMapSet acc p.2.id (createInitialState cat p.2 (rnd p.1) t0)) m

/-- `updateSimulation` from `simulation.ts`: updates every state in
iteration order and returns the updated store together with the emitted
positions map. -/
def updateSimulation (m : Store) (now : ℝ) (rnd : ℕ → TickRand) :
    Store × List (String × GeoPosition) :=
  let m2 : Store := (List.enum m).map (fun p => (p.2.1, tickState p.2.2 now (rnd p.1)))
  (m2, (List.enum m2).map (fun p => (p.2.1, emitSample p.2.2 now (rnd p.1))))

/-- `getResourcePosition` from `simulation.ts`. -/
def getResourcePosition (m : Store) (resourceId : String) : Option GeoPosition :=
  (jsMapGet m resourceId).map fun state =>
    { latitude := state.currentPosition.latitude
      longitude := state.currentPosition.longitude
      timestamp := state.lastUpdate
      speed := if state.status = SimStatus.idle then 0 else state.speed
      heading := state.heading
      accuracy := 5 }

/-- `getAllPositions` from `simulation.ts`. -/
def getAllPositions (m : Store) : List (String × GeoPosition) :=
  List.map (fun p => (p.1,
    ({ latitude := p.2.currentPosition.latitude
       longitude := p.2.currentPosition.longitude
       timestamp := p.2.lastUpdate
       speed := if p.2.status = SimStatus.idle then 0 else p.2.speed
       heading := p.2.heading
       accuracy := (5 : ℝ) } : GeoPosition))) m

/-- `getResourcePosition` viewed as an operation on the module state: it
reads the global store and returns it unchanged (the source function
performs no write). -/
def getResourcePositionOp (m : Store) (resourceId : String) : Option GeoPosition × Store :=
  (getResourcePosition m resourceId, m)

/-- `getAllPositions` viewed as an operation on the module state. -/
def getAllPositionsOp (m : Store) : List (String × GeoPosition) × Store :=
  (getAllPositions m, m)

/-- `JobStatus` from the shared works-module types. -/
inductive JobStatus where
  | draft | scheduled | assigned | in_progress | paused | completed | cancelled | failed
deriving DecidableEq, Repr

/-- `ResourceStatus` from `core.ts`. -/
inductive ResourceStatus where
  | available | on_job | en_route | paused | maintenance | offline | error
deriving DecidableEq, Repr

/-- One entry of `Job.assignedResources` (only the `resourceId` field is
read by the status resolver). -/
structure JobResourceAssignment where
  resourceId : String
deriving DecidableEq, Repr

/-- The slice of `Job` read by the status resolver. -/
structure Job where
  id : String
  status : JobStatus
  assignedResources : List JobResourceAssignment
deriving DecidableEq, Repr

/-- `getJobsByResource` from `data/jobs.ts`, with the module-level
`allJobs` array passed explicitly. -/
def getJobsByResource (jobs : List Job) (resourceId : String) : List Job :=
  jobs.filter fun j => j.assignedResources.any fun r => r.resourceId == resourceId

/-- `getResourceStatusFromJobs` from the backend server: derive a
resource's dispatch status from its jobs.  The source's two early-return
`for` loops are existence scans. -/
def getResourceStatusFromJobs (jobs : List Job) (resourceId : String) : ResourceStatus :=
  let resourceJobs := getJobsByResource jobs resourceId
  if resourceJobs.any (fun j => j.status == JobStatus.in_progress) then .on_job
  else if resourceJobs.any (fun j => j.status == JobStatus.assigned) then .en_route
  else .available

/-- The 16 demo resources from the backend resources data file
(ids and types; the other fields are not read by the simulation). -/
def demoResources : List Resource :=
  [ ⟨"loader-01", .wheel_loader⟩, ⟨"loader-02", .wheel_loader⟩,
    ⟨"loader-03", .wheel_loader⟩, ⟨"loader-04", .wheel_loader⟩,
    ⟨"excavator-01", .excavator⟩, ⟨"excavator-02", .excavator⟩,
    ⟨"excavator-03", .excavator⟩, ⟨"excavator-04", .excavator⟩,
    ⟨"plow-truck-01", .plow_truck⟩, ⟨"plow-truck-02", .plow_truck⟩,
    ⟨"plow-truck-03", .plow_truck⟩, ⟨"plow-truck-04", .plow_truck⟩,
    ⟨"haul-truck-01", .haul_truck⟩, ⟨"haul-truck-02", .haul_truck⟩,
    ⟨"haul-truck-03", .haul_truck⟩, ⟨"haul-truck-04", .haul_truck⟩ ]

/-- The actual values of the shared demo-constants module: `DEMO_GARAGE`
`(62.4012, 17.2856)`, `DEMO_QUARRY_NORTH` `(62.4523, 17.3421)`,
`DEMO_QUARRY_SOUTH` `(62.3345, 17.2789)`, the four `PLOW_ROUTES`
(E4 Norr, Stadscentrum, Industriområdet, Södermalm — four waypoints
each, `lat`/`lng` fields carried over as latitude/longitude), and the
three `PROJECT_AREAS` coordinates. -/
def demoCatalog : Catalog :=
  { plowRoutes :=
      [ ⟨[⟨62.3908, 17.3069⟩, ⟨62.4100, 17.3200⟩, ⟨62.4300, 17.3400⟩, ⟨62.4500, 17.3500⟩]⟩,
        ⟨[⟨62.3908, 17.3069⟩, ⟨62.3880, 17.2900⟩, ⟨62.3850, 17.3100⟩, ⟨62.3920, 17.3200⟩]⟩,
        ⟨[⟨62.4012, 17.2856⟩, ⟨62.4050, 17.2700⟩, ⟨62.4100, 17.2600⟩, ⟨62.4080, 17.2500⟩]⟩,
        ⟨[⟨62.3700, 17.3000⟩, ⟨62.3650, 17.2900⟩, ⟨62.3600, 17.3100⟩, ⟨62.3550, 17.3000⟩]⟩ ]
    projectAreas :=
      [⟨some ⟨62.3950, 17.2800⟩⟩, ⟨some ⟨62.4850, 17.3200⟩⟩, ⟨some ⟨62.4100, 17.2500⟩⟩]
    garage := ⟨62.4012, 17.2856⟩
    quarryNorth := ⟨62.4523, 17.3421⟩
    quarrySouth := ⟨62.3345, 17.2789⟩ }

/-! ## Tick branch characterizations

Shorthand for the three `let`-bound quantities of the non-idle branch of
`updateSimulation`'s body. -/

/-- `deltaTime` of one tick, in seconds. -/
def tickDelta (s : SimulationState) (now : ℝ) : ℝ := (now - s.lastUpdate) / 1000

/-- `distanceToMove` of one tick, in km. -/
def tickMove (s : SimulationState) (now : ℝ) : ℝ := s.speed / 3600 * tickDelta s now

/-- `distanceToTarget` of one tick, in km. -/
def tickRemaining (s : SimulationState) : ℝ :=
  calculateDistance s.currentPosition s.targetPosition


/-- Concrete resources and random streams used by witnesses and
counterexamples. -/
def demoHaulTruck : Resource := ⟨"haul-truck-01", .haul_truck⟩

/-- The first demo excavator. -/
def demoExcavator : Resource := ⟨"excavator-01", .excavator⟩

/-- A constant-zero random stream (every `Math.random()` call returns `0`,
an admissible draw). -/
def zeroRand : ℕ → ℝ := fun _ => 0

/-- A constant-zero per-resource random stream for initialization. -/
def zeroRand2 : ℕ → ℕ → ℝ := fun _ _ => 0

/-- Tick randomness with every draw `1/2` (leaves the speed unchanged:
`speed + (0.5 - 0.5) * 2 = speed`). -/
def halfTickRand : TickRand := ⟨1/2, 1/2, 1/2, 1/2⟩

/-- A constant stream of `halfTickRand` draws. -/
def halfTickRandStream : ℕ → TickRand := fun _ => halfTickRand

/-- The target-cursor invariant of C3: when the waypoint loop is
non-empty, the cursor is in range and `targetPosition` is the waypoint
it names. -/
def targetCursorInv (s : SimulationState) : Prop :=
  s.waypoints ≠ [] →
    s.waypointIndex < s.waypoints.length ∧
      s.waypoints.get? s.waypointIndex = some s.targetPosition

/-- A concrete non-idle mid-leg state: at the origin, heading for a
point one degree of latitude north, at 60 km/h (leg length about
111 km). -/
def midLegState : SimulationState :=
  ⟨"veh-1", ⟨0, 0⟩, ⟨1, 0⟩, 60, 0, [⟨0, 0⟩, ⟨1, 0⟩], 0, .moving, 0⟩

/-- A concrete non-idle state whose `lastUpdate` lies in the future of
the tick (`now = 0 < lastUpdate`): models a backward clock jump. -/
def skewState : SimulationState :=
  ⟨"veh-2", ⟨0, 0⟩, ⟨0, 90⟩, 60, 0, [⟨0, 0⟩, ⟨0, 90⟩], 0, .moving, 60000⟩

/-- A concrete non-idle state whose leg spans 300 degrees of longitude
(both endpoints are valid coordinates near the antimeridian): linear
interpolation moves it the long way round. -/
def wrapState : SimulationState :=
  ⟨"veh-3", ⟨0, -150⟩, ⟨0, 150⟩, 60, 0, [⟨0, -150⟩, ⟨0, 150⟩], 0, .moving, 0⟩

/-- Waypoints of the concrete three-point loop used for C4. -/
def c4A : Coordinates := ⟨0, 0⟩

/-- Second waypoint of the C4 loop. -/
def c4B : Coordinates := ⟨1, 0⟩

/-- Third waypoint of the C4 loop. -/
def c4C : Coordinates := ⟨0, 1⟩

/-- A creation-shaped state on the loop `[A, B, C]`: at `A`, targeting
`B`, cursor `0`, 60 km/h, moving. -/
def c4Start : SimulationState :=
  ⟨"veh-4", c4A, c4B, 60, 0, [c4A, c4B, c4C], 0, .moving, 0⟩

/-- Tick times for the C4 witness trajectory: 2·10^10 ms apart, so every
tick can cover more than the circumference of the Earth. -/
def c4Now : ℕ → ℝ := fun n => (n + 1) * 20000000000

/-- The C4 witness trajectory: iterate the integrator from `c4Start` at
the `c4Now` tick times. -/
def c4Traj : ℕ → SimulationState
  | 0 => c4Start
  | n + 1 => tickState (c4Traj n) (c4Now n) halfTickRand

/-! ## Status resolver lemmas -/

theorem mem_getJobsByResource (jobs : List Job) (rid : String) (j : Job) :
    j ∈ getJobsByResource jobs rid ↔
      j ∈ jobs ∧ ∃ a ∈ j.assignedResources, a.resourceId = rid := by
  simp [getJobsByResource, List.mem_filter, List.any_eq_true, beq_iff_eq]

theorem scan_getJobsByResource (jobs : List Job) (rid : String) (st : JobStatus) :
    ((getJobsByResource jobs rid).any (fun j => j.status == st) = true) ↔
      ∃ j ∈ jobs, (∃ a ∈ j.assignedResources, a.resourceId = rid) ∧ j.status = st := by
  simp only [List.any_eq_true, beq_iff_eq]
  constructor
  · rintro ⟨j, hj, hst⟩
    rw [mem_getJobsByResource] at hj
    exact ⟨j, hj.1, hj.2, hst⟩
  · rintro ⟨j, hj, ha, hst⟩
    exact ⟨j, (mem_getJobsByResource jobs rid j).2 ⟨hj, ha⟩, hst⟩

/-- C5. Status precedence: `getResourceStatusFromJobs` returns `on_job`
iff some job referencing the resource is `in_progress`; failing that,
`en_route` iff some referencing job is `assigned`; and `available`
exactly when neither kind of referencing job exists (in particular with
no jobs, or with only `completed`/`cancelled` referencing jobs).  The
embedding is a pure function of the job list, mirroring the source's
read-only scan. -/
theorem sylon_C5 (jobs : List Job) (resourceId : String) :
    (getResourceStatusFromJobs jobs resourceId = .on_job ↔
      ∃ j ∈ jobs, (∃ a ∈ j.assignedResources, a.resourceId = resourceId) ∧
        j.status = .in_progress) ∧
    (getResourceStatusFromJobs jobs resourceId = .en_route ↔
      (¬ ∃ j ∈ jobs, (∃ a ∈ j.assignedResources, a.resourceId = resourceId) ∧
          j.status = .in_progress) ∧
      ∃ j ∈ jobs, (∃ a ∈ j.assignedResources, a.resourceId = resourceId) ∧
        j.status = .assigned) ∧
    (getResourceStatusFromJobs jobs resourceId = .available ↔
      (¬ ∃ j ∈ jobs, (∃ a ∈ j.assignedResources, a.resourceId = resourceId) ∧
          j.status = .in_progress) ∧
      ¬ ∃ j ∈ jobs, (∃ a ∈ j.assignedResources, a.resourceId = resourceId) ∧
        j.status = .assigned) := by
  have hip := scan_getJobsByResource jobs resourceId .in_progress
  have has := scan_getJobsByResource jobs resourceId .assigned
  unfold getResourceStatusFromJobs
  by_cases h1 : (getJobsByResource jobs resourceId).any
      (fun j => j.status == JobStatus.in_progress) = true
  · simp only [h1, if_true]
    refine ⟨?_, ?_, ?_⟩
    · simp only [true_iff]; exact hip.1 h1
    · constructor
      · intro h; cases h
      · rintro ⟨hno, -⟩; exact absurd (hip.1 h1) hno
    · constructor
      · intro h; cases h
      · rintro ⟨hno, -⟩; exact absurd (hip.1 h1) hno
  · have hip' : ¬ ∃ j ∈ jobs, (∃ a ∈ j.assignedResources, a.resourceId = resourceId) ∧
        j.status = JobStatus.in_progress := fun h => h1 (hip.2 h)
    simp only [Bool.not_eq_true] at h1
    simp only [h1, Bool.false_eq_true, if_false]
    by_cases h2 : (getJobsByResource jobs resourceId).any
        (fun j => j.status == JobStatus.assigned) = true
    · simp only [h2, if_true]
      refine ⟨?_, ?_, ?_⟩
      · constructor
        · intro h; cases h
        · rintro ⟨j, hj, ha, hst⟩
          exact absurd ⟨j, hj, ha, hst⟩ hip'
      · simp only [true_iff]; exact ⟨hip', has.1 h2⟩
      · constructor
        · intro h; cases h
        · rintro ⟨-, hno⟩; exact absurd (has.1 h2) hno
    · have has' : ¬ ∃ j ∈ jobs, (∃ a ∈ j.assignedResources, a.resourceId = resourceId) ∧
          j.status = JobStatus.assigned := fun h => h2 (has.2 h)
      simp only [Bool.not_eq_true] at h2
      simp only [h2, Bool.false_eq_true, if_false]
      refine ⟨?_, ?_, ?_⟩
      · constructor
        · intro h; cases h
        · rintro ⟨j, hj, ha, hst⟩; exact absurd ⟨j, hj, ha, hst⟩ hip'
      · constructor
        · intro h; cases h
        · rintro ⟨-, ⟨j, hj, ha, hst⟩⟩; exact absurd ⟨j, hj, ha, hst⟩ has'
      · simp only [true_iff]; exact ⟨hip', has'⟩

/-- C9. Snapshot determinism: two `getAllPositions` calls with no tick
between them (the second runs on the store returned by the first)
produce the same position list — same resource ids in the same order,
each mapped to an identical record — and the store is unchanged. -/
theorem sylon_C9 (m : Store) :
    (getAllPositionsOp m).1 = (getAllPositionsOp ((getAllPositionsOp m).2)).1 ∧
    (getAllPositionsOp m).2 = m ∧
    (getAllPositionsOp m).1.map Prod.fst = m.map Prod.fst := by
  refine ⟨rfl, rfl, ?_⟩
  simp [getAllPositionsOp, getAllPositions]

/-- C10. Read operations do not mutate simulation state: both read
operations return the store unchanged (every field of every kinematic
state is preserved), and `getResourcePosition` on an unknown resource id
returns `none` (JS `undefined`) rather than failing. -/
theorem sylon_C10 (m : Store) (resourceId : String) :
    (getResourcePositionOp m resourceId).2 = m ∧
    (getAllPositionsOp m).2 = m ∧
    (jsMapGet m resourceId = none → (getResourcePositionOp m resourceId).1 = none) := by
  refine ⟨rfl, rfl, fun h => ?_⟩
  simp [getResourcePositionOp, getResourcePosition, h]

/-- Witness for C10 at a concrete input: the empty store does not know
resource `"r-1"`, and the read returns `none`. -/
theorem sylon_C10_witness :
    jsMapGet ([] : Store) "r-1" = none ∧
    (getResourcePositionOp ([] : Store) "r-1").1 = none := by
  have h : jsMapGet ([] : Store) "r-1" = none := rfl
  exact ⟨h, (sylon_C10 ([] : Store) "r-1").2.2 h⟩

/-! ## Geo bounds -/

theorem atan2_nonneg_le_pi (y x : ℝ) (hy : 0 ≤ y) : 0 ≤ atan2 y x ∧ atan2 y x ≤ π := by
  unfold atan2
  split_ifs with h1 h2 h3 h4
  · have h0 : arctan 0 ≤ arctan (y / x) := arctan_strictMono.monotone (div_nonneg hy h1.le)
    rw [arctan_zero] at h0
    exact ⟨h0, le_trans (arctan_lt_pi_div_two _).le (by linarith [pi_pos])⟩
  · have hyx : y / x ≤ 0 := div_nonpos_iff.mpr (Or.inl ⟨hy, h2.le⟩)
    have hle : arctan (y / x) ≤ arctan 0 := arctan_strictMono.monotone hyx
    rw [arctan_zero] at hle
    have hgt := neg_pi_div_two_lt_arctan (y / x)
    constructor <;> linarith [pi_pos]
  · constructor <;> linarith [pi_pos]
  · exact absurd hy (not_le.2 h4)
  · exact ⟨le_refl 0, pi_pos.le⟩

theorem calculateDistance_nonneg (f t : Coordinates) : 0 ≤ calculateDistance f t := by
  rw [calculateDistance_eq_hav]
  have h := atan2_nonneg_le_pi (Real.sqrt (hav f t)) (Real.sqrt (1 - hav f t)) (Real.sqrt_nonneg _)
  nlinarith [h.1]

theorem calculateDistance_le_40031 (f t : Coordinates) : calculateDistance f t ≤ 40031 := by
  rw [calculateDistance_eq_hav]
  have h := atan2_nonneg_le_pi (Real.sqrt (hav f t)) (Real.sqrt (1 - hav f t)) (Real.sqrt_nonneg _)
  nlinarith [h.2, pi_lt_d6]

theorem tickState_idle (s : SimulationState) (now : ℝ) (r : TickRand)
    (h : s.status = SimStatus.idle) :
    tickState s now r =
      { s with currentPosition := addJitter s.currentPosition 0.00001 r.jx r.jy
               lastUpdate := now } := by
  unfold tickState
  rw [if_pos h]

theorem tickState_arrival (s : SimulationState) (now : ℝ) (r : TickRand)
    (h : s.status ≠ SimStatus.idle) (harr : tickMove s now ≥ tickRemaining s) :
    tickState s now r =
      { s with waypointIndex :=
                 (if s.waypointIndex + 1 ≥ s.waypoints.length then 0 else s.waypointIndex + 1)
               currentPosition := s.targetPosition
               targetPosition :=
                 ((s.waypoints.get?
                    (if s.waypointIndex + 1 ≥ s.waypoints.length then 0
                     else s.waypointIndex + 1)).getD s.targetPosition)
               heading := calculateBearing s.targetPosition
                 ((s.waypoints.get?
                    (if s.waypointIndex + 1 ≥ s.waypoints.length then 0
                     else s.waypointIndex + 1)).getD s.targetPosition)
               lastUpdate := now } := by
  unfold tickMove tickDelta tickRemaining at harr
  unfold tickState
  rw [if_neg h]
  simp only []
  rw [if_pos harr]

theorem tickState_midleg (s : SimulationState) (now : ℝ) (r : TickRand)
    (h : s.status ≠ SimStatus.idle) (hml : ¬ tickMove s now ≥ tickRemaining s) :
    tickState s now r =
      { s with currentPosition :=
                 interpolatePosition s.currentPosition s.targetPosition
                   (tickMove s now / tickRemaining s)
               speed := max 5 (min 80 (s.speed + (r.sp - 0.5) * 2))
               lastUpdate := now } := by
  unfold tickMove tickDelta tickRemaining at hml
  unfold tickState
  rw [if_neg h]
  simp only []
  rw [if_neg hml]
  rfl

/-! ## Store (JS Map) lemmas -/

theorem find?_map_replace (t : Store) (k : String) (v : SimulationState)
    (h : List.any t (fun p => p.1 == k) = true) :
    List.find? (fun p => p.1 == k)
      (List.map (fun p => if p.1 == k then (k, v) else p) t) = some (k, v) := by
  induction t with
  | nil => simp at h
  | cons p tl ih =>
    by_cases hp : (p.1 == k) = true
    · simp only [List.map_cons, if_pos hp]
      exact List.find?_cons_of_pos _ (by simp)
    · have h' : List.any tl (fun p => p.1 == k) = true := by
        simp only [List.any_cons, hp, Bool.false_or] at h
        exact h
      simp only [List.map_cons, if_neg hp]
      rw [List.find?_cons_of_neg _ (by simpa using hp)]
      exact ih h'

theorem jsMapGet_jsMapSet_self (m : Store) (k : String) (v : SimulationState) :
    jsMapGet (jsMapSet m k v) k = some v := by
  unfold jsMapSet jsMapGet
  by_cases h : List.any m (fun p => p.1 == k) = true
  · rw [if_pos h, find?_map_replace m k v h]
    rfl
  · rw [if_neg h]
    have hnone : List.find? (fun p => p.1 == k) m = none := by
      rw [List.find?_eq_none]
      intro x hx hpx
      exact h (List.any_eq_true.2 ⟨x, hx, hpx⟩)
    rw [List.find?_append, hnone, Option.none_or]
    simp

theorem initializeSimulation_singleton (cat : Catalog) (r : Resource)
    (rnd : ℕ → ℕ → ℝ) (t0 : ℝ) (m : Store) :
    initializeSimulation cat [r] rnd t0 m =
      jsMapSet m r.id (createInitialState cat r (rnd 0) t0) := rfl

theorem updateSimulation_singleton (k : String) (s : SimulationState) (now : ℝ)
    (rnd : ℕ → TickRand) :
    (updateSimulation [(k, s)] now rnd).1 = [(k, tickState s now (rnd 0))] := rfl

/-- C7 amended. A second `initializeSimulation` call reports no error:
it is a total operation that silently replaces every listed resource's
kinematic state with a freshly built one (here stated for a one-resource
fleet over an arbitrary pre-existing store, in particular an
already-initialized one), discarding whatever route progress the store
held for that resource. -/
theorem sylon_C7 (cat : Catalog) (r : Resource) (rnd rnd' : ℕ → ℕ → ℝ) (t0 t1 : ℝ)
    (m0 : Store) :
    jsMapGet (initializeSimulation cat [r] rnd' t1 (initializeSimulation cat [r] rnd t0 m0))
        r.id = some (createInitialState cat r (rnd' 0) t1) := by
  rw [initializeSimulation_singleton, initializeSimulation_singleton]
  exact jsMapGet_jsMapSet_self _ _ _

theorem jsMapGet_singleton_self (k : String) (s : SimulationState) :
    jsMapGet [(k, s)] k = some s := by
  unfold jsMapGet
  rw [List.find?_cons_of_pos _ (by simp)]
  rfl

/-- C7 counterexample. The claim as stated is false on the code:
`initializeSimulation` never reports an error.  Concretely, initialize a
one-haul-truck fleet, run one integration tick large enough to advance
the truck to its first waypoint (`waypointIndex = 1`), then call
`initializeSimulation` again: the call completes normally and the store
now maps the truck to a freshly built state with `waypointIndex = 0` —
the in-flight route progress is silently discarded. -/
theorem sylon_C7_counterexample :
    ((jsMapGet ((updateSimulation (initializeSimulation demoCatalog [demoHaulTruck] zeroRand2 0 [])
        20000000000 halfTickRandStream).1) "haul-truck-01").map SimulationState.waypointIndex
      = some 1) ∧
    ((jsMapGet (initializeSimulation demoCatalog [demoHaulTruck] zeroRand2 999
        ((updateSimulation (initializeSimulation demoCatalog [demoHaulTruck] zeroRand2 0 [])
          20000000000 halfTickRandStream).1)) "haul-truck-01").map SimulationState.waypointIndex
      = some 0) := by
  have hm1 : initializeSimulation demoCatalog [demoHaulTruck] zeroRand2 0 [] =
      [("haul-truck-01", createInitialState demoCatalog demoHaulTruck (zeroRand2 0) 0)] := rfl
  have hstat : (createInitialState demoCatalog demoHaulTruck (zeroRand2 0) 0).status ≠
      SimStatus.idle := by
    have : (createInitialState demoCatalog demoHaulTruck (zeroRand2 0) 0).status =
        SimStatus.moving := rfl
    rw [this]; simp
  have hsp : (createInitialState demoCatalog demoHaulTruck (zeroRand2 0) 0).speed = 40 := by
    show (40 : ℝ) + 0 * 30 = 40
    norm_num
  have hlu : (createInitialState demoCatalog demoHaulTruck (zeroRand2 0) 0).lastUpdate = 0 := rfl
  have hlen : (createInitialState demoCatalog demoHaulTruck (zeroRand2 0) 0).waypoints.length
      = 4 := rfl
  have hidx : (createInitialState demoCatalog demoHaulTruck (zeroRand2 0) 0).waypointIndex
      = 0 := rfl
  have harr : tickMove (createInitialState demoCatalog demoHaulTruck (zeroRand2 0) 0) 20000000000
      ≥ tickRemaining (createInitialState demoCatalog demoHaulTruck (zeroRand2 0) 0) := by
    have hb := calculateDistance_le_40031
      (createInitialState demoCatalog demoHaulTruck (zeroRand2 0) 0).currentPosition
      (createInitialState demoCatalog demoHaulTruck (zeroRand2 0) 0).targetPosition
    unfold tickMove tickDelta tickRemaining
    rw [hsp, hlu]
    linarith [hb]
  constructor
  · rw [hm1, updateSimulation_singleton,
      tickState_arrival _ _ _ hstat harr, jsMapGet_singleton_self]
    simp only [Option.map_some']
    rw [hlen, hidx]
    norm_num
  · rw [hm1, updateSimulation_singleton, initializeSimulation_singleton]
    have hid : demoHaulTruck.id = "haul-truck-01" := rfl
    rw [hid, jsMapGet_jsMapSet_self]
    rfl

/-! ## A concretely evaluated haversine distance -/

theorem hav_unit_lat : hav ⟨0, 0⟩ ⟨1, 0⟩ = sin (π / 360) * sin (π / 360) := by
  have harg : ((1 : ℝ) - 0) * π / 180 / 2 = π / 360 := by ring
  have h0 : ((0 : ℝ) - 0) * π / 180 / 2 = 0 := by ring
  have hz : toRad 0 = 0 := by unfold toRad; ring
  unfold hav toRad
  rw [harg, h0, Real.sin_zero]
  ring

theorem dist_unit_lat : calculateDistance ⟨0, 0⟩ ⟨1, 0⟩ = 6371 * (2 * (π / 360)) := by
  have hx : (0 : ℝ) < π / 360 := by positivity
  have hx2 : π / 360 < π / 2 := by
    have := pi_pos
    linarith
  have hsin : 0 ≤ sin (π / 360) :=
    sin_nonneg_of_nonneg_of_le_pi hx.le (by linarith [pi_pos])
  have hcos : 0 < cos (π / 360) := cos_pos_of_mem_Ioo ⟨by linarith [pi_pos], hx2⟩
  rw [calculateDistance_eq_hav, hav_unit_lat]
  have h1 : Real.sqrt (sin (π / 360) * sin (π / 360)) = sin (π / 360) :=
    Real.sqrt_mul_self hsin
  have h2 : (1 : ℝ) - sin (π / 360) * sin (π / 360) = cos (π / 360) * cos (π / 360) := by
    nlinarith [sin_sq_add_cos_sq (π / 360)]
  have h3 : Real.sqrt (1 - sin (π / 360) * sin (π / 360)) = cos (π / 360) := by
    rw [h2]; exact Real.sqrt_mul_self hcos.le
  rw [h1, h3]
  unfold atan2
  rw [if_pos hcos]
  rw [← Real.tan_eq_sin_div_cos, arctan_tan (by linarith [pi_pos]) hx2]

theorem dist_unit_lat_gt : (100 : ℝ) < calculateDistance ⟨0, 0⟩ ⟨1, 0⟩ := by
  rw [dist_unit_lat]
  nlinarith [pi_gt_d6]

/-! ## C1: speed clamp -/

/-- C1 counterexample. The claim as stated is false on the code: an
excavator is created non-idle (`working`) with initial speed
`2 + random * 5`; with the admissible draw `0` its `speedKmh` is `2`,
outside `[5, 80]`, immediately after initialization. -/
theorem sylon_C1_counterexample :
    (createInitialState demoCatalog demoExcavator zeroRand 0).status ≠ SimStatus.idle ∧
    (createInitialState demoCatalog demoExcavator zeroRand 0).speed = 2 ∧
    ¬ (5 ≤ (createInitialState demoCatalog demoExcavator zeroRand 0).speed) := by
  have hst : (createInitialState demoCatalog demoExcavator zeroRand 0).status =
      SimStatus.working := rfl
  have hsp : (createInitialState demoCatalog demoExcavator zeroRand 0).speed = 2 := by
    show (2 : ℝ) + 0 * 5 = 2
    norm_num
  refine ⟨by rw [hst]; simp, hsp, ?_⟩
  rw [hsp]
  norm_num

/-- C1 amended. The clamp to `[5, 80]` is enforced by every
interpolation (mid-leg) tick of a non-idle resource; arrival ticks and
idle ticks leave `speedKmh` unchanged; and initial speeds lie in the
per-type ranges `[30, 50)` (plow trucks), `[40, 70)` (haul trucks),
`[5, 15)` (wheel loaders), `[2, 7)` (excavators — which therefore start
below 5 for small draws, and keep that speed across arrival ticks until
their first mid-leg tick) and `0` for any other type. -/
theorem sylon_C1 :
    (∀ (s : SimulationState) (now : ℝ) (r : TickRand), s.status ≠ SimStatus.idle →
      ¬ tickMove s now ≥ tickRemaining s →
      5 ≤ (tickState s now r).speed ∧ (tickState s now r).speed ≤ 80) ∧
    (∀ (s : SimulationState) (now : ℝ) (r : TickRand), s.status ≠ SimStatus.idle →
      tickMove s now ≥ tickRemaining s → (tickState s now r).speed = s.speed) ∧
    (∀ (s : SimulationState) (now : ℝ) (r : TickRand), s.status = SimStatus.idle →
      (tickState s now r).speed = s.speed) ∧
    (∀ (cat : Catalog) (id : String) (rnd : ℕ → ℝ) (t0 : ℝ),
      (∀ i, 0 ≤ rnd i) → (∀ i, rnd i < 1) →
      (30 ≤ (createInitialState cat ⟨id, .plow_truck⟩ rnd t0).speed ∧
        (createInitialState cat ⟨id, .plow_truck⟩ rnd t0).speed < 50) ∧
      (40 ≤ (createInitialState cat ⟨id, .haul_truck⟩ rnd t0).speed ∧
        (createInitialState cat ⟨id, .haul_truck⟩ rnd t0).speed < 70) ∧
      (5 ≤ (createInitialState cat ⟨id, .wheel_loader⟩ rnd t0).speed ∧
        (createInitialState cat ⟨id, .wheel_loader⟩ rnd t0).speed < 15) ∧
      (2 ≤ (createInitialState cat ⟨id, .excavator⟩ rnd t0).speed ∧
        (createInitialState cat ⟨id, .excavator⟩ rnd t0).speed < 7) ∧
      (createInitialState cat ⟨id, .dump_truck⟩ rnd t0).speed = 0 ∧
      (createInitialState cat ⟨id, .tanker⟩ rnd t0).speed = 0 ∧
      (createInitialState cat ⟨id, .crane⟩ rnd t0).speed = 0) := by
  refine ⟨?_, ?_, ?_, ?_⟩
  · intro s now r h hml
    rw [tickState_midleg s now r h hml]
    constructor
    · exact le_max_left _ _
    · exact max_le (by norm_num) (min_le_left _ _)
  · intro s now r h harr
    rw [tickState_arrival s now r h harr]
  · intro s now r h
    rw [tickState_idle s now r h]
  · intro cat id rnd t0 hge hlt
    refine ⟨⟨?_, ?_⟩, ⟨?_, ?_⟩, ⟨?_, ?_⟩, ⟨?_, ?_⟩, ?_, ?_, ?_⟩
    · show (30 : ℝ) ≤ 30 + rnd 0 * 20
      nlinarith [hge 0]
    · show (30 : ℝ) + rnd 0 * 20 < 50
      nlinarith [hge 0, hlt 0]
    · show (40 : ℝ) ≤ 40 + rnd 0 * 30
      nlinarith [hge 0]
    · show (40 : ℝ) + rnd 0 * 30 < 70
      nlinarith [hge 0, hlt 0]
    · show (5 : ℝ) ≤ 5 + rnd 6 * 10
      nlinarith [hge 6]
    · show (5 : ℝ) + rnd 6 * 10 < 15
      nlinarith [hge 6, hlt 6]
    · show (2 : ℝ) ≤ 2 + rnd 4 * 5
      nlinarith [hge 4]
    · show (2 : ℝ) + rnd 4 * 5 < 7
      nlinarith [hge 4, hlt 4]
    · rfl
    · rfl
    · rfl

/-- Witness for C1 at a concrete input: the mid-leg state (60 km/h, one
minute of travel against a 111 km leg) takes the interpolation branch
and its post-tick speed is clamped into `[5, 80]`. -/
theorem sylon_C1_witness :
    midLegState.status ≠ SimStatus.idle ∧
    ¬ tickMove midLegState 60000 ≥ tickRemaining midLegState ∧
    (5 ≤ (tickState midLegState 60000 halfTickRand).speed ∧
      (tickState midLegState 60000 halfTickRand).speed ≤ 80) := by
  have h1 : midLegState.status ≠ SimStatus.idle := by
    have : midLegState.status = SimStatus.moving := rfl
    rw [this]; simp
  have h2 : ¬ tickMove midLegState 60000 ≥ tickRemaining midLegState := by
    unfold tickMove tickDelta tickRemaining
    have hsp : midLegState.speed = 60 := rfl
    have hlu : midLegState.lastUpdate = 0 := rfl
    have hcur : midLegState.currentPosition = (⟨0, 0⟩ : Coordinates) := rfl
    have htgt : midLegState.targetPosition = (⟨1, 0⟩ : Coordinates) := rfl
    rw [hsp, hlu, hcur, htgt]
    have := dist_unit_lat_gt
    push_neg
    nlinarith
  exact ⟨h1, h2, sylon_C1.1 midLegState 60000 halfTickRand h1 h2⟩

/-! ## C2: clock skew -/

theorem hav_equator_90 : hav ⟨0, 0⟩ ⟨0, 90⟩ = 1 / 2 := by
  have harg : ((90 : ℝ) - 0) * π / 180 / 2 = π / 4 := by ring
  have h0 : ((0 : ℝ) - 0) * π / 180 / 2 = 0 := by ring
  have hz : (0 : ℝ) * π / 180 = 0 := by ring
  unfold hav toRad
  rw [harg, h0, hz, Real.sin_zero, Real.cos_zero, sin_pi_div_four]
  have : Real.sqrt 2 * Real.sqrt 2 = 2 := Real.mul_self_sqrt (by norm_num)
  nlinarith [this]

theorem dist_equator_90 : calculateDistance ⟨0, 0⟩ ⟨0, 90⟩ = 6371 * (2 * (π / 4)) := by
  rw [calculateDistance_eq_hav, hav_equator_90]
  have hhalf : (1 : ℝ) - 1 / 2 = 1 / 2 := by norm_num
  rw [hhalf]
  have hpos : 0 < Real.sqrt (1 / 2) := Real.sqrt_pos.2 (by norm_num)
  unfold atan2
  rw [if_pos hpos, div_self hpos.ne', arctan_one]

theorem dist_equator_90_pos : 0 < calculateDistance ⟨0, 0⟩ ⟨0, 90⟩ := by
  rw [dist_equator_90]
  positivity

theorem map_fst_enumFrom_tick (n : ℕ) (l : Store) (now : ℝ) (rnd : ℕ → TickRand) :
    (List.map (fun p => (p.2.1, tickState p.2.2 now (rnd p.1))) (List.enumFrom n l)).map
      Prod.fst = l.map Prod.fst := by
  induction l generalizing n with
  | nil => rfl
  | cons a t ih =>
    simp only [List.enumFrom, List.map_cons]
    rw [ih]

theorem map_fst_enumFrom_emit (n : ℕ) (l : Store) (now : ℝ) (rnd : ℕ → TickRand) :
    (List.map (fun p => (p.2.1, emitSample p.2.2 now (rnd p.1))) (List.enumFrom n l)).map
      Prod.fst = l.map Prod.fst := by
  induction l generalizing n with
  | nil => rfl
  | cons a t ih =>
    simp only [List.enumFrom, List.map_cons]
    rw [ih]

/-- Every tracked resource gets exactly one emitted sample per tick, in
store order, whatever `now` is (in particular for skewed clocks): the
tick is total and never crashes. -/
theorem updateSimulation_sample_ids (m : Store) (now : ℝ) (rnd : ℕ → TickRand) :
    (updateSimulation m now rnd).2.map Prod.fst = m.map Prod.fst := by
  unfold updateSimulation
  have he : ∀ (l : Store), List.enum l = List.enumFrom 0 l := fun _ => rfl
  simp only [he]
  rw [map_fst_enumFrom_emit, map_fst_enumFrom_tick]

/-- C2 counterexample. The claim as stated is false on the code:
`updateSimulation` computes `deltaTime` without any clamp, so a tick
with `now` behind `lastUpdate` (`dt = -60 s` here) produces a negative
step and a negative interpolation fraction, and the position moves —
backward, away from the target (longitude drops below 0 while the
target sits at longitude 90) — instead of staying unchanged. -/
theorem sylon_C2_counterexample :
    tickDelta skewState 0 < 0 ∧
    (tickState skewState 0 halfTickRand).currentPosition.longitude <
      skewState.currentPosition.longitude := by
  have hdt : tickDelta skewState 0 = -60 := by
    unfold tickDelta
    have : skewState.lastUpdate = 60000 := rfl
    rw [this]
    norm_num
  have hstat : skewState.status ≠ SimStatus.idle := by
    have : skewState.status = SimStatus.moving := rfl
    rw [this]; simp
  have hcur : skewState.currentPosition = (⟨0, 0⟩ : Coordinates) := rfl
  have htgt : skewState.targetPosition = (⟨0, 90⟩ : Coordinates) := rfl
  have hrem : tickRemaining skewState = calculateDistance ⟨0, 0⟩ ⟨0, 90⟩ := by
    unfold tickRemaining
    rw [hcur, htgt]
  have hmv : tickMove skewState 0 = -1 := by
    unfold tickMove
    rw [hdt]
    have : skewState.speed = 60 := rfl
    rw [this]
    norm_num
  have hml : ¬ tickMove skewState 0 ≥ tickRemaining skewState := by
    rw [hmv, hrem]
    push_neg
    linarith [dist_equator_90_pos]
  refine ⟨by rw [hdt]; norm_num, ?_⟩
  rw [tickState_midleg skewState 0 halfTickRand hstat hml]
  have hfrac : tickMove skewState 0 / tickRemaining skewState < 0 := by
    rw [hmv, hrem]
    exact div_neg_of_neg_of_pos (by norm_num) dist_equator_90_pos
  show skewState.currentPosition.longitude +
      (skewState.targetPosition.longitude - skewState.currentPosition.longitude) *
        (tickMove skewState 0 / tickRemaining skewState) <
    skewState.currentPosition.longitude
  rw [hcur, htgt]
  simp only []
  nlinarith [hfrac]

/-- C2 amended. The code does not clamp `dt`.  What actually holds:
(i) a tick at exactly `now = lastUpdate` (`dt = 0`) leaves a non-idle
mid-leg resource's position unchanged (the interpolation fraction is
`0`); (ii) for `now < lastUpdate` (`dt < 0`) with positive speed and a
positive remaining distance, the tick takes the interpolation branch
with a strictly negative fraction — the position is moved backward along
the leg, not held; (iii) in every case the tick is total and still emits
exactly one sample per tracked resource. -/
theorem sylon_C2 :
    (∀ (s : SimulationState) (r : TickRand), s.status ≠ SimStatus.idle →
      0 < tickRemaining s →
      (tickState s s.lastUpdate r).currentPosition = s.currentPosition) ∧
    (∀ (s : SimulationState) (now : ℝ) (r : TickRand), s.status ≠ SimStatus.idle →
      now < s.lastUpdate → 0 < s.speed → 0 < tickRemaining s →
      (tickState s now r).currentPosition =
        interpolatePosition s.currentPosition s.targetPosition
          (tickMove s now / tickRemaining s) ∧
      tickMove s now / tickRemaining s < 0) ∧
    (∀ (m : Store) (now : ℝ) (rnd : ℕ → TickRand),
      (updateSimulation m now rnd).2.map Prod.fst = m.map Prod.fst) := by
  refine ⟨?_, ?_, ?_⟩
  · intro s r hstat hrem
    have hmv : tickMove s s.lastUpdate = 0 := by
      unfold tickMove tickDelta
      ring
    have hml : ¬ tickMove s s.lastUpdate ≥ tickRemaining s := by
      rw [hmv]; push_neg; exact hrem
    rw [tickState_midleg s s.lastUpdate r hstat hml]
    show interpolatePosition s.currentPosition s.targetPosition
        (tickMove s s.lastUpdate / tickRemaining s) = s.currentPosition
    rw [hmv, zero_div]
    unfold interpolatePosition
    rw [Coordinates.ext_iff₂]
    constructor <;> simp
  · intro s now r hstat hnow hsp hrem
    have hmv : tickMove s now < 0 := by
      unfold tickMove tickDelta
      apply mul_neg_of_pos_of_neg
      · positivity
      · have : now - s.lastUpdate < 0 := by linarith
        linarith
    have hml : ¬ tickMove s now ≥ tickRemaining s := by
      push_neg
      linarith
    rw [tickState_midleg s now r hstat hml]
    exact ⟨rfl, div_neg_of_neg_of_pos hmv hrem⟩
  · exact updateSimulation_sample_ids

/-- Witness for C2 at a concrete input: a zero-`dt` tick of the mid-leg
state keeps its position, and a backward-clock tick of the skewed state
takes the interpolation branch with a negative fraction. -/
theorem sylon_C2_witness :
    midLegState.status ≠ SimStatus.idle ∧ 0 < tickRemaining midLegState ∧
    (tickState midLegState midLegState.lastUpdate halfTickRand).currentPosition =
      midLegState.currentPosition ∧
    ((0 : ℝ) < 60000 ∧ 0 < skewState.speed ∧ 0 < tickRemaining skewState ∧
      tickMove skewState 0 / tickRemaining skewState < 0) := by
  have h1 : midLegState.status ≠ SimStatus.idle := by
    have : midLegState.status = SimStatus.moving := rfl
    rw [this]; simp
  have h2 : 0 < tickRemaining midLegState := by
    unfold tickRemaining
    have hcur : midLegState.currentPosition = (⟨0, 0⟩ : Coordinates) := rfl
    have htgt : midLegState.targetPosition = (⟨1, 0⟩ : Coordinates) := rfl
    rw [hcur, htgt]
    linarith [dist_unit_lat_gt]
  have h3 : skewState.status ≠ SimStatus.idle := by
    have : skewState.status = SimStatus.moving := rfl
    rw [this]; simp
  have h4 : 0 < skewState.speed := by
    have : skewState.speed = 60 := rfl
    rw [this]; norm_num
  have h5 : 0 < tickRemaining skewState := by
    unfold tickRemaining
    have hcur : skewState.currentPosition = (⟨0, 0⟩ : Coordinates) := rfl
    have htgt : skewState.targetPosition = (⟨0, 90⟩ : Coordinates) := rfl
    rw [hcur, htgt]
    exact dist_equator_90_pos
  have h6 : (0 : ℝ) < skewState.lastUpdate := by
    have : skewState.lastUpdate = 60000 := rfl
    rw [this]; norm_num
  refine ⟨h1, h2, sylon_C2.1 midLegState halfTickRand h1 h2, ?_, h4, h5, ?_⟩
  · norm_num
  · exact (sylon_C2.2.1 skewState 0 halfTickRand h3 h6 h4 h5).2

/-! ## C3: target-cursor invariant -/

/-- C3 counterexample. The claim as stated is false on the code at
creation: a freshly created haul-truck state has `waypointIndex = 0` but
`targetPosition = waypoints[1]` (the quarry), not `waypoints[0]` (the
garage) — the cursor does not name the current target at creation. -/
theorem sylon_C3_counterexample :
    (createInitialState demoCatalog demoHaulTruck zeroRand 0).waypoints ≠ [] ∧
    ¬ ((createInitialState demoCatalog demoHaulTruck zeroRand 0).waypoints.get?
        (createInitialState demoCatalog demoHaulTruck zeroRand 0).waypointIndex =
      some (createInitialState demoCatalog demoHaulTruck zeroRand 0).targetPosition) := by
  have hidx : (createInitialState demoCatalog demoHaulTruck zeroRand 0).waypointIndex = 0 := rfl
  have hget : (createInitialState demoCatalog demoHaulTruck zeroRand 0).waypoints.get? 0 =
      some (⟨62.4012, 17.2856⟩ : Coordinates) := rfl
  have htgt : (createInitialState demoCatalog demoHaulTruck zeroRand 0).targetPosition =
      (⟨62.4523, 17.3421⟩ : Coordinates) := rfl
  constructor
  · intro h
    rw [h] at hget
    cases hget
  · intro h
    rw [hidx, hget, htgt, Option.some.injEq, Coordinates.ext_iff₂] at h
    have := h.1
    norm_num at this

/-- C3 amended. At creation the cursor is `0` while `targetPosition` is
`waypoints[1]` (falling back to `waypoints[0]`, then the depot) — one
step ahead of the cursor.  The stated equality
`targetPosition = waypoints[waypointIndex]` is established by every
arrival tick of a non-idle resource with a non-empty loop, is untouched
by idle and mid-leg ticks (which change neither cursor nor target), and
once established is preserved by every subsequent tick. -/
theorem sylon_C3 :
    (∀ (s : SimulationState) (now : ℝ) (r : TickRand), s.status ≠ SimStatus.idle →
      tickMove s now ≥ tickRemaining s → targetCursorInv (tickState s now r)) ∧
    (∀ (s : SimulationState) (now : ℝ) (r : TickRand),
      s.status = SimStatus.idle ∨ ¬ tickMove s now ≥ tickRemaining s →
      (tickState s now r).targetPosition = s.targetPosition ∧
      (tickState s now r).waypointIndex = s.waypointIndex ∧
      (tickState s now r).waypoints = s.waypoints) ∧
    (∀ (s : SimulationState) (now : ℝ) (r : TickRand),
      targetCursorInv s → targetCursorInv (tickState s now r)) ∧
    (∀ (cat : Catalog) (res : Resource) (rnd : ℕ → ℝ) (t0 : ℝ),
      (createInitialState cat res rnd t0).waypointIndex = 0 ∧
      (createInitialState cat res rnd t0).targetPosition =
        (((createInitialState cat res rnd t0).waypoints.get? 1).getD
          (((createInitialState cat res rnd t0).waypoints.get? 0).getD cat.garage))) := by
  have hestab : ∀ (s : SimulationState) (now : ℝ) (r : TickRand), s.status ≠ SimStatus.idle →
      tickMove s now ≥ tickRemaining s → targetCursorInv (tickState s now r) := by
    intro s now r hstat harr
    rw [tickState_arrival s now r hstat harr]
    intro hne
    have hlen : 0 < s.waypoints.length := List.length_pos.2 hne
    by_cases hw : s.waypointIndex + 1 ≥ s.waypoints.length
    · simp only [if_pos hw]
      refine ⟨hlen, ?_⟩
      rw [List.get?_eq_get hlen]
      rfl
    · simp only [if_neg hw]
      have hlt : s.waypointIndex + 1 < s.waypoints.length := lt_of_not_ge hw
      refine ⟨hlt, ?_⟩
      rw [List.get?_eq_get hlt]
      rfl
  have hframe : ∀ (s : SimulationState) (now : ℝ) (r : TickRand),
      s.status = SimStatus.idle ∨ ¬ tickMove s now ≥ tickRemaining s →
      (tickState s now r).targetPosition = s.targetPosition ∧
      (tickState s now r).waypointIndex = s.waypointIndex ∧
      (tickState s now r).waypoints = s.waypoints := by
    intro s now r h
    rcases h with h | h
    · rw [tickState_idle s now r h]
      exact ⟨rfl, rfl, rfl⟩
    · by_cases hstat : s.status = SimStatus.idle
      · rw [tickState_idle s now r hstat]
        exact ⟨rfl, rfl, rfl⟩
      · rw [tickState_midleg s now r hstat h]
        exact ⟨rfl, rfl, rfl⟩
  refine ⟨hestab, hframe, ?_, ?_⟩
  · intro s now r hinv
    by_cases hstat : s.status = SimStatus.idle
    · have hf := hframe s now r (Or.inl hstat)
      intro hne
      rw [hf.2.2] at hne
      rw [hf.1, hf.2.1, hf.2.2]
      exact hinv hne
    · by_cases harr : tickMove s now ≥ tickRemaining s
      · exact hestab s now r hstat harr
      · have hf := hframe s now r (Or.inr harr)
        intro hne
        rw [hf.2.2] at hne
        rw [hf.1, hf.2.1, hf.2.2]
        exact hinv hne
  · intro cat res rnd t0
    exact ⟨rfl, rfl⟩

/-- Witness for C3 at a concrete input: an arrival tick of the concrete
loop state establishes the cursor-target equality. -/
theorem sylon_C3_witness :
    c4Start.status ≠ SimStatus.idle ∧
    tickMove c4Start (c4Now 0) ≥ tickRemaining c4Start ∧
    targetCursorInv (tickState c4Start (c4Now 0) halfTickRand) := by
  have h1 : c4Start.status ≠ SimStatus.idle := by
    have : c4Start.status = SimStatus.moving := rfl
    rw [this]; simp
  have h2 : tickMove c4Start (c4Now 0) ≥ tickRemaining c4Start := by
    have hb := calculateDistance_le_40031 c4Start.currentPosition c4Start.targetPosition
    unfold tickMove tickDelta tickRemaining
    have hsp : c4Start.speed = 60 := rfl
    have hlu : c4Start.lastUpdate = 0 := rfl
    have hnow : c4Now 0 = 20000000000 := by
      unfold c4Now
      norm_num
    rw [hsp, hlu, hnow]
    linarith [hb]
  exact ⟨h1, h2, sylon_C3.1 c4Start (c4Now 0) halfTickRand h1 h2⟩

/-! ## C4: waypoint cycling -/

theorem tickState_lastUpdate (s : SimulationState) (now : ℝ) (r : TickRand) :
    (tickState s now r).lastUpdate = now := by
  by_cases h : s.status = SimStatus.idle
  · rw [tickState_idle s now r h]
  · by_cases h2 : tickMove s now ≥ tickRemaining s
    · rw [tickState_arrival s now r h h2]
    · rw [tickState_midleg s now r h h2]

theorem tickState_speed_half (s : SimulationState) (now : ℝ)
    (h5 : 5 ≤ s.speed) (h80 : s.speed ≤ 80) :
    (tickState s now halfTickRand).speed = s.speed := by
  by_cases h : s.status = SimStatus.idle
  · rw [tickState_idle s now halfTickRand h]
  · by_cases h2 : tickMove s now ≥ tickRemaining s
    · rw [tickState_arrival s now halfTickRand h h2]
    · rw [tickState_midleg s now halfTickRand h h2]
      show max 5 (min 80 (s.speed + (halfTickRand.sp - 0.5) * 2)) = s.speed
      have hr : halfTickRand.sp = 1 / 2 := rfl
      rw [hr]
      have he : s.speed + (1 / 2 - 0.5) * 2 = s.speed := by norm_num
      rw [he, min_eq_right h80, max_eq_right (by linarith)]

/-- One arrival tick of a non-idle resource with an in-range cursor:
the cursor advances by exactly one modulo the loop length, the position
snaps to the old target, the new target is the waypoint the new cursor
names, and loop, status and speed are untouched. -/
theorem tick_arrival_closed (s : SimulationState) (now : ℝ) (r : TickRand)
    (hstat : s.status ≠ SimStatus.idle) (harr : tickMove s now ≥ tickRemaining s)
    (hlt : s.waypointIndex < s.waypoints.length) :
    (tickState s now r).waypointIndex = (s.waypointIndex + 1) % s.waypoints.length ∧
    (tickState s now r).currentPosition = s.targetPosition ∧
    (tickState s now r).waypoints = s.waypoints ∧
    (tickState s now r).status = s.status ∧
    (tickState s now r).speed = s.speed ∧
    s.waypoints.get? ((s.waypointIndex + 1) % s.waypoints.length) =
      some ((tickState s now r).targetPosition) := by
  have hidx : (if s.waypointIndex + 1 ≥ s.waypoints.length then 0 else s.waypointIndex + 1) =
      (s.waypointIndex + 1) % s.waypoints.length := by
    by_cases h : s.waypointIndex + 1 ≥ s.waypoints.length
    · rw [if_pos h]
      have he : s.waypointIndex + 1 = s.waypoints.length := le_antisymm hlt h
      rw [he, Nat.mod_self]
    · rw [if_neg h]
      exact (Nat.mod_eq_of_lt (lt_of_not_ge h)).symm
  rw [tickState_arrival s now r hstat harr]
  refine ⟨hidx, rfl, rfl, rfl, rfl, ?_⟩
  have hm : (s.waypointIndex + 1) % s.waypoints.length < s.waypoints.length :=
    Nat.mod_lt _ (by omega)
  rw [hidx, List.get?_eq_get hm]
  rfl

/-- C4. Waypoint cycling on a three-point loop: under big-`dt` ticks
(each guaranteeing arrival), every tick advances the cursor by exactly
one modulo 3, snaps the position to the previous target, and keeps the
target aligned with the cursor, so the cursor runs `0,1,2,0,…` and the
positions visit `B, B, C, A, B, C, A, …` — the loop in cyclic order,
never skipping, never reversing.  In addition (last conjunct, for
arbitrary states with an in-range cursor) any single tick, with any
`dt`, moves the cursor by at most one step modulo the loop length. -/
theorem sylon_C4 (s : ℕ → SimulationState) (now : ℕ → ℝ) (r : ℕ → TickRand)
    (A B C : Coordinates)
    (hstep : ∀ n, s (n + 1) = tickState (s n) (now n) (r n))
    (hwp : (s 0).waypoints = [A, B, C])
    (hidx : (s 0).waypointIndex = 0)
    (htgt : (s 0).targetPosition = B)
    (hstat : (s 0).status ≠ SimStatus.idle)
    (harr : ∀ n, tickMove (s n) (now n) ≥ tickRemaining (s n)) :
    (∀ n, (s (n + 1)).waypointIndex = ((s n).waypointIndex + 1) % 3 ∧
      (s (n + 1)).currentPosition = (s n).targetPosition) ∧
    (∀ n, (s n).waypointIndex = n % 3) ∧
    (∀ n, [A, B, C].get? ((s (n + 1)).waypointIndex) = some ((s (n + 1)).targetPosition)) ∧
    (∀ n, (s (n + 2)).currentPosition = ([A, B, C].get? ((n + 1) % 3)).getD A) ∧
    (s 1).currentPosition = B ∧
    (∀ (x : SimulationState) (t : ℝ) (q : TickRand), x.waypointIndex < x.waypoints.length →
      (tickState x t q).waypointIndex = x.waypointIndex ∨
      (tickState x t q).waypointIndex = (x.waypointIndex + 1) % x.waypoints.length) := by
  have hQ : ∀ n, (s n).waypoints = [A, B, C] ∧ (s n).status ≠ SimStatus.idle ∧
      (s n).waypointIndex = n % 3 := by
    intro n
    induction n with
    | zero => exact ⟨hwp, hstat, hidx⟩
    | succ k ih =>
      have hlt : (s k).waypointIndex < (s k).waypoints.length := by
        rw [ih.1, ih.2.2]
        simp only [List.length_cons, List.length_nil]
        omega
      have hc := tick_arrival_closed (s k) (now k) (r k) ih.2.1 (harr k) hlt
      rw [hstep k]
      refine ⟨?_, ?_, ?_⟩
      · rw [hc.2.2.1, ih.1]
      · rw [hc.2.2.2.1]
        exact ih.2.1
      · rw [hc.1, ih.1, ih.2.2]
        simp only [List.length_cons, List.length_nil]
        omega
  have hstepfacts : ∀ n, (s (n + 1)).waypointIndex = ((s n).waypointIndex + 1) % 3 ∧
      (s (n + 1)).currentPosition = (s n).targetPosition := by
    intro n
    have h := hQ n
    have hlt : (s n).waypointIndex < (s n).waypoints.length := by
      rw [h.1, h.2.2]
      simp only [List.length_cons, List.length_nil]
      omega
    have hc := tick_arrival_closed (s n) (now n) (r n) h.2.1 (harr n) hlt
    rw [hstep n]
    constructor
    · rw [hc.1, h.1]
      simp only [List.length_cons, List.length_nil]
    · exact hc.2.1
  have htgts : ∀ n, [A, B, C].get? ((s (n + 1)).waypointIndex) =
      some ((s (n + 1)).targetPosition) := by
    intro n
    have h := hQ n
    have hlt : (s n).waypointIndex < (s n).waypoints.length := by
      rw [h.1, h.2.2]
      simp only [List.length_cons, List.length_nil]
      omega
    have hc := tick_arrival_closed (s n) (now n) (r n) h.2.1 (harr n) hlt
    have hwn : (s n).waypoints = [A, B, C] := h.1
    have hidx1 : (s (n + 1)).waypointIndex = ((s n).waypointIndex + 1) % 3 :=
      (hstepfacts n).1
    rw [hstep n] at hidx1 ⊢
    rw [hidx1]
    have := hc.2.2.2.2.2
    rw [hwn] at this
    simp only [List.length_cons, List.length_nil] at this
    exact this
  refine ⟨hstepfacts, fun n => (hQ n).2.2, htgts, ?_, ?_, ?_⟩
  · intro n
    have hcur : (s (n + 2)).currentPosition = (s (n + 1)).targetPosition :=
      (hstepfacts (n + 1)).2
    have ht := htgts n
    have hidx1 : (s (n + 1)).waypointIndex = (n + 1) % 3 := (hQ (n + 1)).2.2
    rw [hidx1] at ht
    rw [hcur, ht]
    rfl
  · rw [(hstepfacts 0).2, htgt]
  · intro x t q hlt
    by_cases hst : x.status = SimStatus.idle
    · left
      rw [tickState_idle x t q hst]
    · by_cases ha : tickMove x t ≥ tickRemaining x
      · right
        exact (tick_arrival_closed x t q hst ha hlt).1
      · left
        rw [tickState_midleg x t q hst ha]

/-- Witness for C4 at a concrete input: the trajectory `c4Traj` iterates
the integrator over the loop `[A, B, C]` with 60 km/h and huge tick
gaps; every hypothesis of the cycling theorem holds and the positions
visit `B` then `B` (waypoint 1) as the cursor runs `0, 1, 2, 0, …`. -/
theorem sylon_C4_witness :
    (∀ n, c4Traj (n + 1) = tickState (c4Traj n) (c4Now n) halfTickRand) ∧
    (c4Traj 0).waypoints = [c4A, c4B, c4C] ∧
    (c4Traj 0).waypointIndex = 0 ∧
    (c4Traj 0).targetPosition = c4B ∧
    (c4Traj 0).status ≠ SimStatus.idle ∧
    (∀ n, tickMove (c4Traj n) (c4Now n) ≥ tickRemaining (c4Traj n)) ∧
    (∀ n, (c4Traj n).waypointIndex = n % 3) ∧
    (c4Traj 1).currentPosition = c4B ∧
    (c4Traj 2).currentPosition = ([c4A, c4B, c4C].get? (1 % 3)).getD c4A := by
  have hstep : ∀ n, c4Traj (n + 1) = tickState (c4Traj n) (c4Now n) halfTickRand :=
    fun n => rfl
  have hstat : (c4Traj 0).status ≠ SimStatus.idle := by
    have : (c4Traj 0).status = SimStatus.moving := rfl
    rw [this]; simp
  have hsp : ∀ n, (c4Traj n).speed = 60 := by
    intro n
    induction n with
    | zero => rfl
    | succ k ih =>
      rw [hstep k, tickState_speed_half (c4Traj k) (c4Now k) (by rw [ih]; norm_num)
        (by rw [ih]; norm_num), ih]
  have hlu : ∀ n, (c4Traj n).lastUpdate = (n : ℝ) * 20000000000 := by
    intro n
    induction n with
    | zero =>
      have : (c4Traj 0).lastUpdate = 0 := rfl
      rw [this]
      simp
    | succ k ih =>
      rw [hstep k, tickState_lastUpdate]
      show ((k : ℝ) + 1) * 20000000000 = ((k + 1 : ℕ) : ℝ) * 20000000000
      push_cast
      ring
  have harr : ∀ n, tickMove (c4Traj n) (c4Now n) ≥ tickRemaining (c4Traj n) := by
    intro n
    have hb := calculateDistance_le_40031 (c4Traj n).currentPosition (c4Traj n).targetPosition
    unfold tickMove tickDelta tickRemaining
    rw [hsp n, hlu n]
    show 60 / 3600 * ((((n : ℝ) + 1) * 20000000000 - (n : ℝ) * 20000000000) / 1000) ≥ _
    have he : ((n : ℝ) + 1) * 20000000000 - (n : ℝ) * 20000000000 = 20000000000 := by ring
    rw [he]
    linarith
  have main := sylon_C4 c4Traj c4Now (fun _ => halfTickRand) c4A c4B c4C hstep rfl rfl rfl
    hstat harr
  refine ⟨hstep, rfl, rfl, rfl, hstat, harr, main.2.1, main.2.2.2.2.1, ?_⟩
  exact main.2.2.2.1 0

/-! ## C8: non-empty waypoint loops -/

theorem jsArrayGet_tmod_mem {α : Type} (l : List α) (hl : l ≠ []) (k : ℤ) (hk : 0 ≤ k) :
    ∃ x ∈ l, jsArrayGet l (k.tmod l.length) = some x := by
  have hlen : 0 < l.length := List.length_pos.2 hl
  have hb : (0 : ℤ) < (l.length : ℤ) := by exact_mod_cast hlen
  have ht : k.tmod (l.length : ℤ) = k % (l.length : ℤ) := Int.tmod_eq_emod hk hb.le
  have h0 : 0 ≤ k % (l.length : ℤ) := Int.emod_nonneg k hb.ne'
  have h1 : k % (l.length : ℤ) < (l.length : ℤ) := Int.emod_lt_of_pos k hb
  have h2 : (k % (l.length : ℤ)).toNat < l.length := by
    have hcast : ((k % (l.length : ℤ)).toNat : ℤ) = k % (l.length : ℤ) :=
      Int.toNat_of_nonneg h0
    exact_mod_cast hcast ▸ h1
  refine ⟨l.get ⟨(k % (l.length : ℤ)).toNat, h2⟩, List.get_mem l _ _, ?_⟩
  unfold jsArrayGet
  rw [ht, dif_pos ⟨h0, h2⟩]

theorem plowWaypoints_ne_nil (cat : Catalog) (id : String)
    (h1 : cat.plowRoutes ≠ [])
    (h2 : ∀ route ∈ cat.plowRoutes, route.waypoints ≠ [])
    (n : ℤ) (hn : parseIntJS (idPart id 2) = some n) (hpos : 0 ≤ n - 1) :
    plowWaypoints cat id ≠ [] := by
  unfold plowWaypoints
  rw [hn]
  dsimp only
  obtain ⟨x, hx, he⟩ := jsArrayGet_tmod_mem cat.plowRoutes h1 (n - 1) hpos
  rw [he]
  exact h2 x hx

/-- C8. Non-empty waypoint loop: every kinematic state built at
initialization over the actual shared catalog has a non-empty waypoint
loop — haul trucks, loaders and excavators get literal 4-, 3- and
2-point loops, unknown types fall back to the single-point depot loop,
and the four demo plow trucks (ids `plow-truck-01 … 04`) parse to route
indices `0 … 3`, each resolving one of the four real patrol routes
(four waypoints each). -/
theorem sylon_C8 (rnd : ℕ → ℝ) (t0 : ℝ) :
    ∀ r ∈ demoResources, (createInitialState demoCatalog r rnd t0).waypoints ≠ [] := by
  intro r hr
  fin_cases hr <;> exact List.cons_ne_nil _ _

/-- Witness for C8 at a concrete input: `plow-truck-01` is in the demo
fleet and its created state has a non-empty loop. -/
theorem sylon_C8_witness :
    (⟨"plow-truck-01", .plow_truck⟩ : Resource) ∈ demoResources ∧
    (createInitialState demoCatalog ⟨"plow-truck-01", .plow_truck⟩ zeroRand 0).waypoints
      ≠ [] := by
  have hmem : (⟨"plow-truck-01", .plow_truck⟩ : Resource) ∈ demoResources := by
    simp [demoResources]
  exact ⟨hmem, sylon_C8 zeroRand 0 _ hmem⟩

/-! ## C6: mid-leg progress — analytic toolkit -/

theorem atan2_sqrt_eq_arcsin (h : ℝ) (h0 : 0 ≤ h) (h1 : h ≤ 1) :
    atan2 (Real.sqrt h) (Real.sqrt (1 - h)) = arcsin (Real.sqrt h) := by
  rcases eq_or_lt_of_le h1 with heq | hlt
  · rw [heq]
    have e0 : (1 : ℝ) - 1 = 0 := by norm_num
    rw [e0, Real.sqrt_zero, Real.sqrt_one, arcsin_one]
    unfold atan2
    norm_num
  · have hpos : 0 < 1 - h := by linarith
    have hx : 0 < Real.sqrt (1 - h) := Real.sqrt_pos.2 hpos
    unfold atan2
    rw [if_pos hx, arctan_eq_arcsin]
    congr 1
    have e1 : (Real.sqrt h / Real.sqrt (1 - h)) ^ 2 = h / (1 - h) := by
      rw [div_pow, Real.sq_sqrt h0, Real.sq_sqrt hpos.le]
    rw [e1]
    have e2 : 1 + h / (1 - h) = (1 - h)⁻¹ := by
      field_simp
    rw [e2, Real.sqrt_inv]
    field_simp

theorem dist_form_lt_of_hav_lt (h₁ h₂ : ℝ) (h1n : 0 ≤ h₁) (hlt : h₁ < h₂) (h2le : h₂ ≤ 1) :
    6371 * (2 * atan2 (Real.sqrt h₁) (Real.sqrt (1 - h₁))) <
      6371 * (2 * atan2 (Real.sqrt h₂) (Real.sqrt (1 - h₂))) := by
  rw [atan2_sqrt_eq_arcsin h₁ h1n (by linarith), atan2_sqrt_eq_arcsin h₂ (by linarith) h2le]
  have hs : Real.sqrt h₁ < Real.sqrt h₂ := Real.sqrt_lt_sqrt h1n hlt
  have hm1 : Real.sqrt h₁ ∈ Set.Icc (-1 : ℝ) 1 :=
    ⟨by linarith [Real.sqrt_nonneg h₁], Real.sqrt_le_one.2 (by linarith)⟩
  have hm2 : Real.sqrt h₂ ∈ Set.Icc (-1 : ℝ) 1 :=
    ⟨by linarith [Real.sqrt_nonneg h₂], Real.sqrt_le_one.2 h2le⟩
  have := strictMonoOn_arcsin hm1 hm2 hs
  linarith

theorem sin_mul_self_abs (x : ℝ) : sin |x| * sin |x| = sin x * sin x := by
  rcases abs_cases x with ⟨h, -⟩ | ⟨h, -⟩
  · rw [h]
  · rw [h, Real.sin_neg]
    ring

theorem sin_sq_mono_piece (x y : ℝ) (hx : 0 ≤ x) (hxy : x ≤ y) (hy : y ≤ π / 2) :
    sin x * sin x ≤ sin y * sin y := by
  have hsx : 0 ≤ sin x :=
    sin_nonneg_of_nonneg_of_le_pi hx (by linarith [pi_pos])
  have hmono : sin x ≤ sin y := by
    apply strictMonoOn_sin.monotoneOn
    · exact ⟨by linarith [pi_pos], by linarith⟩
    · exact ⟨by linarith [pi_pos], hy⟩
    · exact hxy
  exact mul_self_le_mul_self hsx hmono

theorem sin_sq_mono_piece_lt (x y : ℝ) (hx : 0 ≤ x) (hxy : x < y) (hy : y ≤ π / 2) :
    sin x * sin x < sin y * sin y := by
  have hsx : 0 ≤ sin x :=
    sin_nonneg_of_nonneg_of_le_pi hx (by linarith [pi_pos])
  have hmono : sin x < sin y := by
    apply strictMonoOn_sin
    · exact ⟨by linarith [pi_pos], by linarith⟩
    · exact ⟨by linarith [pi_pos], hy⟩
    · exact hxy
  exact mul_self_lt_mul_self hsx hmono

theorem sin_sq_scale_le (b s : ℝ) (hb : |b| ≤ π) (hs0 : 0 ≤ s) (hs1 : s ≤ 1) :
    sin (s * b / 2) * sin (s * b / 2) ≤ sin (b / 2) * sin (b / 2) := by
  have e1 : sin (s * b / 2) * sin (s * b / 2) =
      sin (|s * b / 2|) * sin (|s * b / 2|) := (sin_mul_self_abs _).symm
  have e2 : sin (b / 2) * sin (b / 2) = sin (|b / 2|) * sin (|b / 2|) :=
    (sin_mul_self_abs _).symm
  rw [e1, e2]
  have habs : |s * b / 2| = s * (|b| / 2) := by
    rw [abs_div, abs_mul, abs_of_nonneg hs0]
    norm_num
    ring
  have habs2 : |b / 2| = |b| / 2 := by
    rw [abs_div]
    norm_num
  rw [habs, habs2]
  apply sin_sq_mono_piece
  · positivity
  · exact mul_le_of_le_one_left (by positivity) hs1
  · linarith

theorem sin_sq_scale_lt (b s : ℝ) (hb0 : b ≠ 0) (hb : |b| ≤ π) (hs0 : 0 ≤ s) (hs1 : s < 1) :
    sin (s * b / 2) * sin (s * b / 2) < sin (b / 2) * sin (b / 2) := by
  have e1 : sin (s * b / 2) * sin (s * b / 2) =
      sin (|s * b / 2|) * sin (|s * b / 2|) := (sin_mul_self_abs _).symm
  have e2 : sin (b / 2) * sin (b / 2) = sin (|b / 2|) * sin (|b / 2|) :=
    (sin_mul_self_abs _).symm
  rw [e1, e2]
  have hbpos : 0 < |b| := abs_pos.2 hb0
  have habs : |s * b / 2| = s * (|b| / 2) := by
    rw [abs_div, abs_mul, abs_of_nonneg hs0]
    norm_num
    ring
  have habs2 : |b / 2| = |b| / 2 := by
    rw [abs_div]
    norm_num
  rw [habs, habs2]
  apply sin_sq_mono_piece_lt
  · positivity
  · have : s * (|b| / 2) < 1 * (|b| / 2) := by
      apply mul_lt_mul_of_pos_right hs1
      positivity
    linarith
  · linarith

theorem hav_closed_form (A B L : ℝ) :
    sin ((B - A) / 2) * sin ((B - A) / 2) + sin (L / 2) * sin (L / 2) * cos A * cos B =
      1 / 2 - sin A * sin B / 2 - cos L * (cos A * cos B) / 2 := by
  have e1 : sin ((B - A) / 2) * sin ((B - A) / 2) = 1 / 2 - cos (B - A) / 2 := by
    have h := sin_sq_eq_half_sub (x := (B - A) / 2)
    have h2 : 2 * ((B - A) / 2) = B - A := by ring
    rw [h2] at h
    nlinarith [h]
  have e2 : sin (L / 2) * sin (L / 2) = 1 / 2 - cos L / 2 := by
    have h := sin_sq_eq_half_sub (x := L / 2)
    have h2 : 2 * (L / 2) = L := by ring
    rw [h2] at h
    nlinarith [h]
  rw [e1, e2, Real.cos_sub]
  ring

theorem hav_real_le_one (A B L : ℝ) (hA : 0 ≤ cos A) (hB : 0 ≤ cos B) :
    sin ((B - A) / 2) * sin ((B - A) / 2) + sin (L / 2) * sin (L / 2) * cos A * cos B ≤ 1 := by
  rw [hav_closed_form]
  have h1 : (-1 : ℝ) ≤ cos L := neg_one_le_cos L
  have h2 : cos (A + B) ≤ 1 := cos_le_one _
  have h3 : (-1 : ℝ) * (cos A * cos B) ≤ cos L * (cos A * cos B) :=
    mul_le_mul_of_nonneg_right h1 (mul_nonneg hA hB)
  have h4 := Real.cos_add A B
  nlinarith [h3, h2, h4]

theorem hav_le_one (f t : Coordinates)
    (h1a : -90 ≤ f.latitude) (h1b : f.latitude ≤ 90)
    (h2a : -90 ≤ t.latitude) (h2b : t.latitude ≤ 90) :
    hav f t ≤ 1 := by
  have hA : 0 ≤ cos (toRad f.latitude) := by
    apply cos_nonneg_of_mem_Icc
    constructor
    · unfold toRad
      nlinarith [pi_pos]
    · unfold toRad
      nlinarith [pi_pos]
  have hB : 0 ≤ cos (toRad t.latitude) := by
    apply cos_nonneg_of_mem_Icc
    constructor
    · unfold toRad
      nlinarith [pi_pos]
    · unfold toRad
      nlinarith [pi_pos]
  unfold hav
  have e : toRad (t.latitude - f.latitude) = toRad t.latitude - toRad f.latitude := by
    unfold toRad
    ring
  rw [e]
  exact hav_real_le_one (toRad f.latitude) (toRad t.latitude)
    (toRad (t.longitude - f.longitude)) hA hB

theorem hav_nonneg (f t : Coordinates)
    (hA : 0 ≤ cos (toRad f.latitude)) (hB : 0 ≤ cos (toRad t.latitude)) :
    0 ≤ hav f t := by
  unfold hav
  have h1 : 0 ≤ sin (toRad (t.latitude - f.latitude) / 2) *
      sin (toRad (t.latitude - f.latitude) / 2) := mul_self_nonneg _
  have h2 : 0 ≤ sin (toRad (t.longitude - f.longitude) / 2) *
      sin (toRad (t.longitude - f.longitude) / 2) * cos (toRad f.latitude) *
      cos (toRad t.latitude) :=
    mul_nonneg (mul_nonneg (mul_self_nonneg _) hA) hB
  linarith

theorem toRad_nonneg (x : ℝ) (h : 0 ≤ x) : 0 ≤ toRad x := by
  unfold toRad
  have := mul_nonneg h pi_pos.le
  linarith

theorem toRad_pos (x : ℝ) (h : 0 < x) : 0 < toRad x := by
  unfold toRad
  have := mul_pos h pi_pos
  linarith

theorem toRad_le_toRad (a b : ℝ) (h : a ≤ b) : toRad a ≤ toRad b := by
  unfold toRad
  have := mul_le_mul_of_nonneg_right h pi_pos.le
  linarith

theorem toRad_le_pi_div_two (x : ℝ) (h : x ≤ 90) : toRad x ≤ π / 2 := by
  unfold toRad
  have := mul_le_mul_of_nonneg_right h pi_pos.le
  linarith

theorem neg_pi_div_two_le_toRad (x : ℝ) (h : -90 ≤ x) : -(π / 2) ≤ toRad x := by
  unfold toRad
  have := mul_le_mul_of_nonneg_right h pi_pos.le
  linarith

theorem cos_toRad_nonneg (x : ℝ) (h0 : -90 ≤ x) (h90 : x ≤ 90) : 0 ≤ cos (toRad x) :=
  cos_nonneg_of_mem_Icc ⟨neg_pi_div_two_le_toRad x h0, toRad_le_pi_div_two x h90⟩

/-- The heart of C6: a linear interpolation step with fraction in
`(0, 1)` strictly decreases the haversine quantity toward the target,
for a poleward northern-hemisphere leg whose longitude difference is at
most 180 degrees. -/
theorem hav_interp_lt (f t : Coordinates) (fr : ℝ)
    (hfr0 : 0 < fr) (hfr1 : fr < 1)
    (h0 : 0 ≤ f.latitude) (h12 : f.latitude ≤ t.latitude) (h90 : t.latitude ≤ 90)
    (hlon : |t.longitude - f.longitude| ≤ 180)
    (hpos : 0 < hav f t) :
    hav (interpolatePosition f t fr) t < hav f t := by
  have hlat' : (interpolatePosition f t fr).latitude =
      f.latitude + (t.latitude - f.latitude) * fr := rfl
  have hlon' : (interpolatePosition f t fr).longitude =
      f.longitude + (t.longitude - f.longitude) * fr := rfl
  have hdnn : 0 ≤ t.latitude - f.latitude := by linarith
  have hprod_ge : 0 ≤ (t.latitude - f.latitude) * fr := mul_nonneg hdnn hfr0.le
  have hprod_le : (t.latitude - f.latitude) * fr ≤ t.latitude - f.latitude :=
    mul_le_of_le_one_right hdnn hfr1.le
  have hlat'ge : 0 ≤ f.latitude + (t.latitude - f.latitude) * fr := by linarith
  have hlat'le : f.latitude + (t.latitude - f.latitude) * fr ≤ t.latitude := by linarith
  unfold hav
  rw [hlat', hlon']
  have eA : toRad (t.latitude - (f.latitude + (t.latitude - f.latitude) * fr)) =
      (1 - fr) * toRad (t.latitude - f.latitude) := by
    unfold toRad
    ring
  have eL : toRad (t.longitude - (f.longitude + (t.longitude - f.longitude) * fr)) =
      (1 - fr) * toRad (t.longitude - f.longitude) := by
    unfold toRad
    ring
  rw [eA, eL]
  have ha0 : 0 ≤ toRad (t.latitude - f.latitude) := toRad_nonneg _ hdnn
  have haabs : |toRad (t.latitude - f.latitude)| ≤ π := by
    rw [abs_of_nonneg ha0]
    have := toRad_le_pi_div_two (t.latitude - f.latitude) (by linarith)
    linarith [pi_pos]
  have hbabs : |toRad (t.longitude - f.longitude)| ≤ π := by
    unfold toRad
    rw [abs_div, abs_mul, abs_of_pos pi_pos]
    rw [abs_of_pos (by norm_num : (0 : ℝ) < 180)]
    rw [div_le_iff₀ (by norm_num : (0 : ℝ) < 180)]
    have := mul_le_mul_of_nonneg_right hlon pi_pos.le
    linarith
  have hs0 : (0 : ℝ) ≤ 1 - fr := by linarith
  have hs1 : (1 : ℝ) - fr < 1 := by linarith
  have hC2 : 0 ≤ cos (toRad t.latitude) := cos_toRad_nonneg _ (by linarith) h90
  have hC1 : 0 ≤ cos (toRad f.latitude) := cos_toRad_nonneg _ (by linarith) (by linarith)
  have hC1' : 0 ≤ cos (toRad (f.latitude + (t.latitude - f.latitude) * fr)) :=
    cos_toRad_nonneg _ (by linarith) (by linarith)
  have hC1'le : cos (toRad (f.latitude + (t.latitude - f.latitude) * fr)) ≤
      cos (toRad f.latitude) := by
    apply cos_le_cos_of_nonneg_of_le_pi
    · exact toRad_nonneg _ h0
    · have := toRad_le_pi_div_two (f.latitude + (t.latitude - f.latitude) * fr)
        (by linarith)
      linarith [pi_pos]
    · exact toRad_le_toRad _ _ (by linarith)
  have hSle : sin ((1 - fr) * toRad (t.longitude - f.longitude) / 2) *
        sin ((1 - fr) * toRad (t.longitude - f.longitude) / 2) ≤
      sin (toRad (t.longitude - f.longitude) / 2) *
        sin (toRad (t.longitude - f.longitude) / 2) :=
    sin_sq_scale_le _ _ hbabs hs0 (by linarith)
  rcases lt_or_eq_of_le h12 with hlt | heq
  · -- strictly poleward: the latitude term strictly decreases
    have hapos : 0 < toRad (t.latitude - f.latitude) := toRad_pos _ (by linarith)
    have hT1strict : sin ((1 - fr) * toRad (t.latitude - f.latitude) / 2) *
          sin ((1 - fr) * toRad (t.latitude - f.latitude) / 2) <
        sin (toRad (t.latitude - f.latitude) / 2) *
          sin (toRad (t.latitude - f.latitude) / 2) :=
      sin_sq_scale_lt _ _ hapos.ne' haabs hs0 hs1
    have hstep1 : sin ((1 - fr) * toRad (t.longitude - f.longitude) / 2) *
          sin ((1 - fr) * toRad (t.longitude - f.longitude) / 2) *
          cos (toRad (f.latitude + (t.latitude - f.latitude) * fr)) ≤
        sin (toRad (t.longitude - f.longitude) / 2) *
          sin (toRad (t.longitude - f.longitude) / 2) * cos (toRad f.latitude) :=
      mul_le_mul hSle hC1'le hC1' (mul_self_nonneg _)
    have hstep2 := mul_le_mul_of_nonneg_right hstep1 hC2
    linarith
  · -- equal latitudes: the longitude term strictly decreases
    have hd0 : t.latitude - f.latitude = 0 := by rw [heq]; ring
    have ea : toRad (t.latitude - f.latitude) = 0 := by
      unfold toRad
      rw [hd0]
      ring
    have elat : f.latitude + (t.latitude - f.latitude) * fr = f.latitude := by
      rw [hd0]
      ring
    rw [ea, elat]
    unfold hav at hpos
    rw [ea] at hpos
    norm_num [Real.sin_zero] at hpos ⊢
    have hSnn : 0 ≤ sin (toRad (t.longitude - f.longitude) / 2) *
        sin (toRad (t.longitude - f.longitude) / 2) := mul_self_nonneg _
    have hSpos : 0 < sin (toRad (t.longitude - f.longitude) / 2) *
        sin (toRad (t.longitude - f.longitude) / 2) := by
      rcases eq_or_lt_of_le hSnn with h | h
      · exfalso
        rw [← h] at hpos
        norm_num at hpos
      · exact h
    have hC1pos : 0 < cos (toRad f.latitude) := by
      rcases eq_or_lt_of_le hC1 with h | h
      · exfalso
        rw [← h] at hpos
        norm_num at hpos
      · exact h
    have hC2pos : 0 < cos (toRad t.latitude) := by
      rcases eq_or_lt_of_le hC2 with h | h
      · exfalso
        rw [← h] at hpos
        norm_num at hpos
      · exact h
    have hbne : toRad (t.longitude - f.longitude) ≠ 0 := by
      intro h
      rw [h] at hSpos
      norm_num [Real.sin_zero] at hSpos
    have hSstrict : sin ((1 - fr) * toRad (t.longitude - f.longitude) / 2) *
          sin ((1 - fr) * toRad (t.longitude - f.longitude) / 2) <
        sin (toRad (t.longitude - f.longitude) / 2) *
          sin (toRad (t.longitude - f.longitude) / 2) :=
      sin_sq_scale_lt _ _ hbne hbabs hs0 hs1
    have hfin := mul_lt_mul_of_pos_right
      (mul_lt_mul_of_pos_right hSstrict hC1pos) hC2pos
    linarith

theorem self_le_arcsin (x : ℝ) (h0 : 0 ≤ x) (h1 : x ≤ 1) : x ≤ arcsin x := by
  have h2 : sin (arcsin x) = x := Real.sin_arcsin (by linarith) h1
  have h3 : 0 ≤ arcsin x := Real.arcsin_nonneg.2 h0
  rcases eq_or_lt_of_le h3 with h | h
  · rw [← h] at h2 ⊢
    rw [Real.sin_zero] at h2
    linarith
  · calc x = sin (arcsin x) := h2.symm
    _ ≤ arcsin x := (Real.sin_lt h).le

/-- C6 amended. A mid-leg tick (`dt > 0`, `0 < step < remaining`) of a
non-idle resource leaves `waypointIndex`, `targetPosition` and the loop
unchanged, and — for a leg that stays in the northern hemisphere, moves
poleward (`0 ≤ current latitude ≤ target latitude ≤ 90`) and spans at
most 180 degrees of longitude, which covers the §8 haul-truck scenario —
strictly decreases the haversine distance to the target. -/
theorem sylon_C6 (s : SimulationState) (now : ℝ) (r : TickRand)
    (hstat : s.status ≠ SimStatus.idle)
    (hdt : 0 < tickDelta s now)
    (hstep : 0 < tickMove s now)
    (hml : tickMove s now < tickRemaining s)
    (hlat0 : 0 ≤ s.currentPosition.latitude)
    (hlat12 : s.currentPosition.latitude ≤ s.targetPosition.latitude)
    (hlat90 : s.targetPosition.latitude ≤ 90)
    (hlon : |s.targetPosition.longitude - s.currentPosition.longitude| ≤ 180) :
    (tickState s now r).waypointIndex = s.waypointIndex ∧
    (tickState s now r).targetPosition = s.targetPosition ∧
    (tickState s now r).waypoints = s.waypoints ∧
    calculateDistance (tickState s now r).currentPosition s.targetPosition <
      calculateDistance s.currentPosition s.targetPosition := by
  have hml' : ¬ tickMove s now ≥ tickRemaining s := not_le.2 hml
  rw [tickState_midleg s now r hstat hml']
  refine ⟨rfl, rfl, rfl, ?_⟩
  have hrem : 0 < tickRemaining s := lt_trans hstep hml
  have hfr0 : 0 < tickMove s now / tickRemaining s := div_pos hstep hrem
  have hfr1 : tickMove s now / tickRemaining s < 1 := (div_lt_one hrem).2 hml
  have hCc : 0 ≤ cos (toRad s.currentPosition.latitude) :=
    cos_toRad_nonneg _ (by linarith) (by linarith)
  have hCt : 0 ≤ cos (toRad s.targetPosition.latitude) :=
    cos_toRad_nonneg _ (by linarith) hlat90
  have hhnn : 0 ≤ hav s.currentPosition s.targetPosition :=
    hav_nonneg _ _ hCc hCt
  have hhpos : 0 < hav s.currentPosition s.targetPosition := by
    rcases eq_or_lt_of_le hhnn with h | h
    · exfalso
      have hd0 : calculateDistance s.currentPosition s.targetPosition = 0 := by
        rw [calculateDistance_eq_hav, ← h]
        have e1 : (1 : ℝ) - 0 = 1 := by norm_num
        rw [e1, Real.sqrt_zero, Real.sqrt_one]
        unfold atan2
        rw [if_pos (by norm_num : (0 : ℝ) < 1)]
        norm_num
      unfold tickRemaining at hrem
      rw [hd0] at hrem
      norm_num at hrem
    · exact h
  have hkey := hav_interp_lt s.currentPosition s.targetPosition
    (tickMove s now / tickRemaining s) hfr0 hfr1 hlat0 hlat12 hlat90 hlon hhpos
  have hnn2 : 0 ≤ hav (interpolatePosition s.currentPosition s.targetPosition
      (tickMove s now / tickRemaining s)) s.targetPosition := by
    apply hav_nonneg
    · apply cos_toRad_nonneg
      · have h1 : 0 ≤ (s.targetPosition.latitude - s.currentPosition.latitude) *
            (tickMove s now / tickRemaining s) :=
          mul_nonneg (by linarith) hfr0.le
        show -90 ≤ s.currentPosition.latitude +
          (s.targetPosition.latitude - s.currentPosition.latitude) *
            (tickMove s now / tickRemaining s)
        linarith
      · have h1 : (s.targetPosition.latitude - s.currentPosition.latitude) *
            (tickMove s now / tickRemaining s) ≤
            s.targetPosition.latitude - s.currentPosition.latitude :=
          mul_le_of_le_one_right (by linarith) hfr1.le
        show s.currentPosition.latitude +
          (s.targetPosition.latitude - s.currentPosition.latitude) *
            (tickMove s now / tickRemaining s) ≤ 90
        linarith
    · exact hCt
  have hle1 : hav s.currentPosition s.targetPosition ≤ 1 :=
    hav_le_one _ _ (by linarith) (by linarith) (by linarith) hlat90
  have hfin := dist_form_lt_of_hav_lt _ _ hnn2 hkey hle1
  rw [calculateDistance_eq_hav, calculateDistance_eq_hav]
  exact hfin

/-- Witness for C6 at a concrete input: the mid-leg state (one minute at
60 km/h against a poleward 111 km leg) satisfies every hypothesis and
ends strictly closer to its target. -/
theorem sylon_C6_witness :
    midLegState.status ≠ SimStatus.idle ∧
    0 < tickDelta midLegState 60000 ∧
    0 < tickMove midLegState 60000 ∧
    tickMove midLegState 60000 < tickRemaining midLegState ∧
    0 ≤ midLegState.currentPosition.latitude ∧
    midLegState.currentPosition.latitude ≤ midLegState.targetPosition.latitude ∧
    midLegState.targetPosition.latitude ≤ 90 ∧
    |midLegState.targetPosition.longitude - midLegState.currentPosition.longitude| ≤ 180 ∧
    calculateDistance (tickState midLegState 60000 halfTickRand).currentPosition
        midLegState.targetPosition <
      calculateDistance midLegState.currentPosition midLegState.targetPosition := by
  have hstat : midLegState.status ≠ SimStatus.idle := by
    have : midLegState.status = SimStatus.moving := rfl
    rw [this]; simp
  have hlu : midLegState.lastUpdate = 0 := rfl
  have hsp : midLegState.speed = 60 := rfl
  have hcur : midLegState.currentPosition = (⟨0, 0⟩ : Coordinates) := rfl
  have htgt : midLegState.targetPosition = (⟨1, 0⟩ : Coordinates) := rfl
  have hdt : 0 < tickDelta midLegState 60000 := by
    unfold tickDelta
    rw [hlu]
    norm_num
  have hmv : tickMove midLegState 60000 = 1 := by
    unfold tickMove tickDelta
    rw [hsp, hlu]
    norm_num
  have hstep : 0 < tickMove midLegState 60000 := by
    rw [hmv]
    norm_num
  have hrem : tickRemaining midLegState = calculateDistance ⟨0, 0⟩ ⟨1, 0⟩ := by
    unfold tickRemaining
    rw [hcur, htgt]
  have hml : tickMove midLegState 60000 < tickRemaining midLegState := by
    rw [hmv, hrem]
    linarith [dist_unit_lat_gt]
  have h1 : 0 ≤ midLegState.currentPosition.latitude := by
    rw [hcur]
  have h2 : midLegState.currentPosition.latitude ≤ midLegState.targetPosition.latitude := by
    rw [hcur, htgt]
    norm_num
  have h3 : midLegState.targetPosition.latitude ≤ 90 := by
    rw [htgt]
    norm_num
  have h4 : |midLegState.targetPosition.longitude -
      midLegState.currentPosition.longitude| ≤ 180 := by
    rw [hcur, htgt]
    norm_num
  exact ⟨hstat, hdt, hstep, hml, h1, h2, h3, h4,
    (sylon_C6 midLegState 60000 halfTickRand hstat hdt hstep hml h1 h2 h3 h4).2.2.2⟩

theorem hav_wrap : hav ⟨0, -150⟩ ⟨0, 150⟩ = 1 / 4 := by
  unfold hav
  have ez : toRad ((0 : ℝ) - 0) / 2 = 0 := by
    unfold toRad
    ring
  have ez2 : toRad (0 : ℝ) = 0 := by
    unfold toRad
    ring
  have eb : toRad ((150 : ℝ) - -150) / 2 = π - π / 6 := by
    unfold toRad
    ring
  rw [ez, ez2, eb, Real.sin_zero, Real.cos_zero, Real.sin_pi_sub, Real.sin_pi_div_six]
  norm_num

theorem sqrt_quarter : Real.sqrt (1 / 4) = 1 / 2 := by
  have h : (1 / 4 : ℝ) = (1 / 2) ^ 2 := by norm_num
  rw [h, Real.sqrt_sq (by norm_num)]

theorem dist_wrap_ge : (6371 : ℝ) ≤ calculateDistance ⟨0, -150⟩ ⟨0, 150⟩ := by
  rw [calculateDistance_eq_hav, hav_wrap,
    atan2_sqrt_eq_arcsin (1 / 4) (by norm_num) (by norm_num), sqrt_quarter]
  have h := self_le_arcsin (1 / 2) (by norm_num) (by norm_num)
  nlinarith [h]

/-- C6 counterexample. The claim as stated is false on the code: for a
leg spanning 300 degrees of longitude along the equator (valid
coordinates on either side of the antimeridian), a mid-leg tick
(`dt = 60 s`, `step = 1 km`, `remaining ≥ 6371 km`) moves the resource
the long way round and the haversine distance to the target strictly
*increases*. -/
theorem sylon_C6_counterexample :
    wrapState.status ≠ SimStatus.idle ∧
    0 < tickDelta wrapState 60000 ∧
    0 < tickMove wrapState 60000 ∧
    tickMove wrapState 60000 < tickRemaining wrapState ∧
    calculateDistance wrapState.currentPosition wrapState.targetPosition <
      calculateDistance (tickState wrapState 60000 halfTickRand).currentPosition
        wrapState.targetPosition := by
  have hstat : wrapState.status ≠ SimStatus.idle := by
    have : wrapState.status = SimStatus.moving := rfl
    rw [this]; simp
  have hcur : wrapState.currentPosition = (⟨0, -150⟩ : Coordinates) := rfl
  have htgt : wrapState.targetPosition = (⟨0, 150⟩ : Coordinates) := rfl
  have hlu : wrapState.lastUpdate = 0 := rfl
  have hsp : wrapState.speed = 60 := rfl
  have hdt : 0 < tickDelta wrapState 60000 := by
    unfold tickDelta
    rw [hlu]
    norm_num
  have hmv : tickMove wrapState 60000 = 1 := by
    unfold tickMove tickDelta
    rw [hsp, hlu]
    norm_num
  have hrem : tickRemaining wrapState = calculateDistance ⟨0, -150⟩ ⟨0, 150⟩ := by
    unfold tickRemaining
    rw [hcur, htgt]
  have hml : tickMove wrapState 60000 < tickRemaining wrapState := by
    rw [hmv, hrem]
    linarith [dist_wrap_ge]
  refine ⟨hstat, hdt, by rw [hmv]; norm_num, hml, ?_⟩
  rw [tickState_midleg wrapState 60000 halfTickRand hstat (not_le.2 hml)]
  rw [hcur, htgt, hmv, hrem]
  -- the interpolation fraction
  have hdpos : (0 : ℝ) < calculateDistance ⟨0, -150⟩ ⟨0, 150⟩ := by
    linarith [dist_wrap_ge]
  have hf0 : 0 < 1 / calculateDistance ⟨0, -150⟩ ⟨0, 150⟩ := by positivity
  have hfs : 1 / calculateDistance ⟨0, -150⟩ ⟨0, 150⟩ ≤ 1 / 6371 :=
    one_div_le_one_div_of_le (by norm_num) dist_wrap_ge
  set f : ℝ := 1 / calculateDistance ⟨0, -150⟩ ⟨0, 150⟩ with hfdef
  -- haversine of the post-tick leg
  have hend : hav (interpolatePosition ⟨0, -150⟩ ⟨0, 150⟩ f) ⟨0, 150⟩ =
      sin ((1 - f) * (5 * π / 6)) * sin ((1 - f) * (5 * π / 6)) := by
    unfold hav
    have hlat2 : (interpolatePosition (⟨0, -150⟩ : Coordinates) ⟨0, 150⟩ f).latitude =
        0 + ((0 : ℝ) - 0) * f := rfl
    have hlon2 : (interpolatePosition (⟨0, -150⟩ : Coordinates) ⟨0, 150⟩ f).longitude =
        -150 + ((150 : ℝ) - -150) * f := rfl
    rw [hlat2, hlon2]
    have ez : toRad ((0 : ℝ) - (0 + (0 - 0) * f)) / 2 = 0 := by
      unfold toRad
      ring
    have ez2 : toRad ((0 : ℝ) + (0 - 0) * f) = 0 := by
      unfold toRad
      ring
    have ez3 : toRad (0 : ℝ) = 0 := by
      unfold toRad
      ring
    have eb : toRad ((150 : ℝ) - (-150 + (150 - -150) * f)) / 2 =
        (1 - f) * (5 * π / 6) := by
      unfold toRad
      ring
    rw [ez, ez2, ez3, eb, Real.sin_zero, Real.cos_zero]
    ring
  -- the angle lies in (π/2, 5π/6), so its sine exceeds 1/2
  have hf25 : f < 2 / 5 := by
    have : (1 : ℝ) / 6371 < 2 / 5 := by norm_num
    linarith
  have hθlo : π / 2 < (1 - f) * (5 * π / 6) := by
    nlinarith [mul_pos pi_pos (show (0 : ℝ) < 2 / 5 - f by linarith)]
  have hθhi : (1 - f) * (5 * π / 6) < 5 * π / 6 := by
    nlinarith [mul_pos pi_pos hf0]
  have hsin : 1 / 2 < sin ((1 - f) * (5 * π / 6)) := by
    rw [← Real.sin_pi_sub]
    have hm : π - (1 - f) * (5 * π / 6) ∈ Set.Icc (-(π / 2)) (π / 2) := by
      constructor
      · linarith [pi_pos]
      · linarith
    have hm6 : (π / 6 : ℝ) ∈ Set.Icc (-(π / 2)) (π / 2) := by
      constructor
      · linarith [pi_pos]
      · linarith [pi_pos]
    have := strictMonoOn_sin hm6 hm (by linarith)
    rw [Real.sin_pi_div_six] at this
    linarith
  have hlt : hav ⟨0, -150⟩ ⟨0, 150⟩ <
      hav (interpolatePosition ⟨0, -150⟩ ⟨0, 150⟩ f) ⟨0, 150⟩ := by
    rw [hav_wrap, hend]
    nlinarith [hsin]
  have hle1 : hav (interpolatePosition ⟨0, -150⟩ ⟨0, 150⟩ f) ⟨0, 150⟩ ≤ 1 := by
    rw [hend]
    nlinarith [sin_le_one ((1 - f) * (5 * π / 6)), neg_one_le_sin ((1 - f) * (5 * π / 6))]
  have hfin := dist_form_lt_of_hav_lt _ _ (by rw [hav_wrap]; norm_num) hlt hle1
  rw [calculateDistance_eq_hav, calculateDistance_eq_hav]
  exact hfin
